import Mathlib

/-!
Verification of the autozerts task-orchestration core.

JavaScript strings are sequences of UTF-16 code units; we embed them as
`List Nat` (each element one code unit).  The Raycast `LocalStorage`
key-value store is embedded as an association list from keys to an
abstraction of the stored text.  Effectful orchestration code is embedded
as explicit state passing over the store plus an event trace, with the
outcomes of external processes (git, the agent subprocess, network calls)
supplied by oracle records.
-/

namespace AutoZerts

/-- A JavaScript string: a list of UTF-16 code units. -/
abbrev JSString := List Nat

/-- Embed an ASCII Lean string literal as a list of code units. -/
def str (s : String) : JSString := s.data.map (fun c => c.toNat)

/-! ## sanitizeUnicode (src/unnamed/part_002, lines 8-28) -/

/-- `code >= 0xd800 && code <= 0xdbff`. -/
def isHighSurrogate (c : Nat) : Bool := decide (0xd800 ≤ c) && decide (c ≤ 0xdbff)

/-- `next >= 0xdc00 && next <= 0xdfff`. -/
def isLowSurrogate (c : Nat) : Bool := decide (0xdc00 ≤ c) && decide (c ≤ 0xdfff)

/-- A surrogate code unit (either half-range). -/
def isSurrogate (c : Nat) : Bool := isHighSurrogate c || isLowSurrogate c

/-- U+FFFD, the replacement character. -/
def replacementChar : Nat := 0xFFFD

/-- `sanitizeUnicode` from src/unnamed/part_002: walk the code units; keep a
high surrogate followed by a low surrogate as a pair (advancing past both);
replace a high surrogate not followed by a low surrogate, or a bare low
surrogate, by U+FFFD; copy everything else.  When a high surrogate is the
last unit, the source compares against `next = 0`, which is not a low
surrogate, hence the replacement branch. -/
def sanitizeUnicode : JSString → JSString
  | [] => []
  | [c] =>
    if isHighSurrogate c then [replacementChar]
    else if isLowSurrogate c then [replacementChar]
    else [c]
  | c :: c2 :: rest2 =>
    if isHighSurrogate c then
      if isLowSurrogate c2 then c :: c2 :: sanitizeUnicode rest2
      else replacementChar :: sanitizeUnicode (c2 :: rest2)
    else if isLowSurrogate c then replacementChar :: sanitizeUnicode (c2 :: rest2)
    else c :: sanitizeUnicode (c2 :: rest2)

/-- Position `i` of `l` holds an unpaired surrogate: a high surrogate whose
successor unit is not a low surrogate, or a low surrogate whose predecessor
unit is not a high surrogate.  Out-of-range lookups default to `0`, which is
no surrogate, matching the `next = 0` fallback of the source. -/
def unpairedSurrogateAt (l : JSString) (i : Nat) : Bool :=
  let c := l.getD i 0
  if isHighSurrogate c then ! isLowSurrogate (l.getD (i + 1) 0)
  else if isLowSurrogate c then decide (i = 0) || ! isHighSurrogate (l.getD (i - 1) 0)
  else false

/-- The string contains no unpaired surrogate, phrased along the greedy
left-to-right scan that the source performs. -/
def noUnpairedSurrogates : JSString → Bool
  | [] => true
  | [c] =>
    if isHighSurrogate c then false
    else if isLowSurrogate c then false
    else true
  | c :: c2 :: rest2 =>
    if isHighSurrogate c then isLowSurrogate c2 && noUnpairedSurrogates rest2
    else if isLowSurrogate c then false
    else noUnpairedSurrogates (c2 :: rest2)

/-! ## Task records and the LocalStorage model (src/unnamed/part_002) -/

/-- `TaskStatus` from src/src/types/storage.ts. -/
inductive TaskStatus where
  | initializing
  | worktree_created
  | dependencies_installed
  | planning
  | plan_complete
  | implementing
  | implementation_complete
  | pushing
  | pr_created
  | feedback_implementing
  | complete
  | error
  | cancelled
deriving DecidableEq

/-- `TaskState` from src/src/types/storage.ts.  `costUsd` is a JS float; we
embed it as a rational, which is exact for every value the claims touch. -/
structure TaskState where
  taskId : JSString
  jiraKey : JSString
  jiraSummary : JSString
  jiraUrl : JSString
  repoName : JSString
  branchName : JSString
  worktreePath : JSString
  baseBranch : JSString
  status : TaskStatus
  claudeSessionId : Option JSString
  prUrl : Option JSString
  prNumber : Option Nat
  error : Option JSString
  costUsd : Option Rat
  createdAt : Nat
  updatedAt : Nat
  progressLog : List JSString
deriving DecidableEq

/-- A `Partial<TaskState>` as passed to `updateTaskStatus`: each field is
either absent from the patch (`none`) or present with the value that
`Object.assign` writes over the record.  Only the fields the orchestrator
actually patches are represented. -/
structure TaskPatch where
  worktreePath : Option JSString
  claudeSessionId : Option (Option JSString)
  prUrl : Option (Option JSString)
  prNumber : Option (Option Nat)
  error : Option (Option JSString)
  costUsd : Option (Option Rat)
deriving DecidableEq

/-- The empty patch (the `extra` argument omitted). -/
def TaskPatch.none : TaskPatch :=
  { worktreePath := Option.none, claudeSessionId := Option.none, prUrl := Option.none
    prNumber := Option.none, error := Option.none, costUsd := Option.none }

/-- `Object.assign(task, extra)` restricted to the patched fields. -/
def applyPatch (t : TaskState) (p : TaskPatch) : TaskState :=
  { t with
    worktreePath := p.worktreePath.getD t.worktreePath
    claudeSessionId := p.claudeSessionId.getD t.claudeSessionId
    prUrl := p.prUrl.getD t.prUrl
    prNumber := p.prNumber.getD t.prNumber
    error := p.error.getD t.error
    costUsd := p.costUsd.getD t.costUsd }

/-- Orchestration parameter payloads (src/src/types/storage.ts): a tagged
union on `mode`.  The issue snapshot and the mode-specific strings are
carried opaquely; `updateExistingPlan` is the optional plan-revision flag and
`newCommentsContext` the optional feedback context. -/
inductive ParamsAbs where
  | plan (issueId issueIdentifier issueTitle issueUrl : JSString)
      (issueDescription : Option JSString)
      (repoName branchName baseBranch userInstructions : JSString)
      (updateExistingPlan : Bool)
  | implement (issueId issueIdentifier issueTitle issueUrl : JSString)
      (issueDescription : Option JSString)
      (repoName branchName baseBranch userInstructions : JSString)
  | feedback (issueKey repoName feedbackText : JSString) (postAsComment : Bool)
      (newCommentsContext : Option JSString)
deriving DecidableEq

/-- Abstraction of one string stored in `LocalStorage`.  `taskText t` is a
JSON text that parses back to the task shape `t`; `paramsText p` likewise for
orchestration parameters; `trueText` is the literal string `"true"` written
for cancellation flags; `malformed` is a nonempty string on which
`JSON.parse` throws.  The three key namespaces (`task:`, `orch-params:`,
`cancel:`) are disjoint, so each namespace only ever holds its own shape. -/
inductive StoredString where
  | taskText (t : TaskState)
  | paramsText (p : ParamsAbs)
  | trueText
  | malformed
deriving DecidableEq

/-- The LocalStorage contents: an association list in insertion order. -/
abbrev Store := List (JSString × StoredString)

/-- `LocalStorage.getItem`. -/
def lsGetItem (s : Store) (k : JSString) : Option StoredString :=
  (s.find? (fun kv => decide (kv.1 = k))).map (fun kv => kv.2)

/-- `LocalStorage.setItem`: overwrite an existing key in place, else append. -/
def lsSetItem (s : Store) (k : JSString) (v : StoredString) : Store :=
  if s.any (fun kv => decide (kv.1 = k)) then
    s.map (fun kv => if kv.1 = k then (k, v) else kv)
  else s ++ [(k, v)]

/-- `LocalStorage.removeItem`. -/
def lsRemoveItem (s : Store) (k : JSString) : Store :=
  s.filter (fun kv => ! decide (kv.1 = k))

/-- `"task:"`. -/
def taskNS : JSString := str "task:"
/-- `"orch-params:"`. -/
def orchNS : JSString := str "orch-params:"
/-- `"cancel:"`. -/
def cancelNS : JSString := str "cancel:"

/-- `getTask`: read `task:<key>`; a missing item or one on which
`JSON.parse` throws yields `null` (here `none`). -/
def getTask (s : Store) (jiraKey : JSString) : Option TaskState :=
  match lsGetItem s (taskNS ++ jiraKey) with
  | some (.taskText t) => some t
  | _ => none

/-- `saveTask`: bump `updatedAt` to `Date.now()` (passed as `now`) and write
the serialized record under `task:<key>`. -/
def saveTask (now : Nat) (s : Store) (task : TaskState) : Store :=
  lsSetItem s (taskNS ++ task.jiraKey) (.taskText { task with updatedAt := now })

/-- `updateTaskStatus`: no-op returning `null` when the record is absent,
else set `status`, `Object.assign` the patch, and save. -/
def updateTaskStatus (now : Nat) (s : Store) (jiraKey : JSString)
    (status : TaskStatus) (extra : TaskPatch) : Store × Option TaskState :=
  match getTask s jiraKey with
  | Option.none => (s, Option.none)
  | some task =>
      let task := applyPatch { task with status := status } extra
      (saveTask now s task, some task)

/-- The log line written by `appendProgressLog`:
`"[" + new Date().toLocaleTimeString() + "] " + sanitizeUnicode(message)`.
The local-time text is passed in as `nowTime`. -/
def formatLogLine (nowTime message : JSString) : JSString :=
  str "[" ++ nowTime ++ str "] " ++ sanitizeUnicode message

/-- The log update performed by `appendProgressLog`: push the line, then
`progressLog = progressLog.slice(-500)` when more than 500 entries remain. -/
def pushTrim (log : List JSString) (line : JSString) : List JSString :=
  let g := log ++ [line]
  if 500 < g.length then g.drop (g.length - 500) else g

/-- The last `n` elements of a list (the whole list when it is shorter). -/
def tailTrim (n : Nat) (l : List JSString) : List JSString :=
  l.drop (l.length - n)

/-- `appendProgressLog`: no-op when the record is absent; append the
formatted line; `slice(-500)` when the log exceeds 500 entries; save. -/
def appendProgressLog (now : Nat) (nowTime : JSString) (s : Store)
    (jiraKey message : JSString) : Store :=
  match getTask s jiraKey with
  | Option.none => s
  | some task =>
      saveTask now s
        { task with progressLog := pushTrim task.progressLog (formatLogLine nowTime message) }

/-- A sequence of `appendProgressLog` calls for one key; each call carries
its `Date.now()` value, its local-time text, and the message. -/
def runAppends (s : Store) (jiraKey : JSString)
    (calls : List (Nat × JSString × JSString)) : Store :=
  calls.foldl (fun st c => appendProgressLog c.1 c.2.1 st jiraKey c.2.2) s

/-- `key.startsWith(ns)`. -/
def startsWithNS (k ns : JSString) : Bool := decide (k.take ns.length = ns)

/-- `getAllTasks`: enumerate all items, keep those under `task:` that parse,
skip corrupted entries, sort by `updatedAt` descending (stable sort, as
required of `Array.prototype.sort`). -/
def getAllTasks (s : Store) : List TaskState :=
  (s.filterMap (fun kv =>
    if startsWithNS kv.1 taskNS then
      match kv.2 with
      | .taskText t => some t
      | _ => Option.none
    else Option.none)).mergeSort (fun a b => decide (b.updatedAt ≤ a.updatedAt))

/-- `saveOrchestrationParams`. -/
def saveOrchestrationParams (s : Store) (jiraKey : JSString) (p : ParamsAbs) : Store :=
  lsSetItem s (orchNS ++ jiraKey) (.paramsText p)

/-- `getOrchestrationParams`: missing or unparseable stored text is `null`. -/
def getOrchestrationParams (s : Store) (jiraKey : JSString) : Option ParamsAbs :=
  match lsGetItem s (orchNS ++ jiraKey) with
  | some (.paramsText p) => some p
  | _ => Option.none

/-- `clearOrchestrationParams`. -/
def clearOrchestrationParams (s : Store) (jiraKey : JSString) : Store :=
  lsRemoveItem s (orchNS ++ jiraKey)

/-- `requestCancellation`: store the string `"true"`. -/
def requestCancellation (s : Store) (jiraKey : JSString) : Store :=
  lsSetItem s (cancelNS ++ jiraKey) .trueText

/-- `isCancellationRequested`: strict comparison with `"true"`. -/
def isCancellationRequested (s : Store) (jiraKey : JSString) : Bool :=
  match lsGetItem s (cancelNS ++ jiraKey) with
  | some .trueText => true
  | _ => false

/-- `clearCancellation`. -/
def clearCancellation (s : Store) (jiraKey : JSString) : Store :=
  lsRemoveItem s (cancelNS ++ jiraKey)

/-! ## Workspace manager (src/src/services/worktree.ts) -/

/-- The configuration fields the workspace manager reads
(src/src/utils/preferences.ts, `getConfig`). -/
structure AppConfig where
  githubOwner : JSString
  worktreeBasePath : JSString
  planFilesPath : JSString
  gitAuthorName : JSString
  gitAuthorEmail : JSString
deriving DecidableEq

/-- A repository entry from the configuration. -/
structure RepoConfig where
  name : JSString
  localPath : JSString
  defaultBranch : JSString
deriving DecidableEq

/-- The path separator `/`. -/
def pathSep : Nat := 47

/-- `path.join` of two segments, modeled as separator concatenation (none of
the claims depends on path normalization). -/
def pathJoin (a b : JSString) : JSString := a ++ pathSep :: b

/-- `getWorktreePath`: `path.join(worktreeBasePath, repoName, branchName)`. -/
def getWorktreePath (cfg : AppConfig) (repoName branchName : JSString) : JSString :=
  pathJoin (pathJoin cfg.worktreeBasePath repoName) branchName

/-- `path.dirname`: strip the last separator-delimited segment. -/
def parentDir (p : JSString) : JSString :=
  ((p.reverse.dropWhile (fun c => decide (c ≠ pathSep))).drop 1).reverse

/-- The git-visible world `createWorktree` interacts with: which directories
exist on disk, and which branches the canonical upstream has (determining
whether `git rev-parse --verify origin/<branch>` succeeds after the fetch). -/
structure GitWorld where
  existingPaths : List JSString
  remoteBranches : List JSString
deriving DecidableEq

/-- External commands issued by `createWorktree`, in order. -/
inductive GitCmd where
  | fetchOrigin (repoName localPath : JSString)
  | mkdirParents (dir : JSString)
  | revParseVerify (ref : JSString) (ok : Bool)
  | worktreeAddTrack (branch path startPoint : JSString)
  | worktreeAddFork (branch path startPoint : JSString)
deriving DecidableEq

/-- `worktreeExists`: `fs.access` succeeds exactly on recorded paths. -/
def worktreeExists (w : GitWorld) (p : JSString) : Bool :=
  decide (p ∈ w.existingPaths)

/-- `createWorktree`: reuse an existing workspace after a reference sync;
otherwise create the parent directory, fetch, probe `origin/<branch>`, and
add a worktree either tracking the existing upstream branch or forked from
`origin/<baseBranch>`.  Returns the new world, the commands run in order,
and the returned path. -/
def createWorktree (cfg : AppConfig) (w : GitWorld) (repo : RepoConfig)
    (branchName baseBranch : JSString) : GitWorld × List GitCmd × JSString :=
  let worktreePath := getWorktreePath cfg repo.name branchName
  if worktreeExists w worktreePath then
    (w, [GitCmd.fetchOrigin repo.name repo.localPath], worktreePath)
  else
    let bex := decide (branchName ∈ w.remoteBranches)
    let pre := [GitCmd.mkdirParents (parentDir worktreePath),
      GitCmd.fetchOrigin repo.name repo.localPath,
      GitCmd.revParseVerify (str "origin/" ++ branchName) bex]
    if bex then
      ({ w with existingPaths := worktreePath :: w.existingPaths },
        pre ++ [GitCmd.worktreeAddTrack branchName worktreePath
          (str "origin/" ++ branchName)],
        worktreePath)
    else
      ({ w with existingPaths := worktreePath :: w.existingPaths },
        pre ++ [GitCmd.worktreeAddFork branchName worktreePath
          (str "origin/" ++ baseBranch)],
        worktreePath)

/-- The working tree `commitAllChanges` operates on: tracked files that
differ from HEAD (what `git diff --name-only --diff-filter=ACMR HEAD`
reports) and untracked files (staged by `git add -A` but invisible to the
diff, hence never formatted). -/
structure TreeWorld where
  trackedChanges : List JSString
  untracked : List JSString
deriving DecidableEq

/-- External commands issued by `commitAllChanges`, in order. -/
inductive TreeCmd where
  | gitDiffNames (files : List JSString)
  | prettierWrite (files : List JSString) (ok : Bool)
  | gitAddAll
  | gitDiffCachedQuiet (clean : Bool)
  | gitCommit (message authorName authorEmail : JSString)
deriving DecidableEq

/-- `commitAllChanges`: best-effort prettier over the changed files (a
failure is caught and changes nothing), `git add -A`, then commit exactly
when `git diff --cached --quiet` reports staged content; the commit uses the
configured author identity.  Returns the new tree, the commands in order,
and whether a commit was created. -/
def commitAllChanges (cfg : AppConfig) (prettierFails : Bool) (w : TreeWorld) :
    TreeWorld × List TreeCmd × Bool :=
  let changed := w.trackedChanges
  let fmtEvs := TreeCmd.gitDiffNames changed ::
    (if 0 < changed.length then [TreeCmd.prettierWrite changed (! prettierFails)] else [])
  let clean := decide (w.trackedChanges = []) && decide (w.untracked = [])
  let evs := fmtEvs ++ [TreeCmd.gitAddAll, TreeCmd.gitDiffCachedQuiet clean]
  if clean = true then (w, evs, false)
  else ({ trackedChanges := [], untracked := [] },
    evs ++ [TreeCmd.gitCommit (str "Apply remaining changes")
      cfg.gitAuthorName cfg.gitAuthorEmail],
    true)

/-! ## Dependency installation (src/src/services/worktree.ts, installDependencies) -/

/-- The lock-file table in its fixed priority order (`Object.entries`
preserves insertion order). -/
def lockFileTable : List (JSString × JSString × List JSString) :=
  [(str "bun.lockb", str "bun", [str "install"]),
   (str "bun.lock", str "bun", [str "install"]),
   (str "pnpm-lock.yaml", str "pnpm", [str "install", str "--frozen-lockfile"]),
   (str "yarn.lock", str "yarn", [str "install", str "--frozen-lockfile"]),
   (str "package-lock.json", str "npm", [str "ci"])]

/-- One attempted install command and whether it succeeded. -/
inductive InstallEv where
  | run (cmd : JSString) (args : List JSString) (ok : Bool)
deriving DecidableEq

/-- The world `installDependencies` probes: which files exist in the
worktree, whether the install command matching a given lock file succeeds,
and whether the fallback `npm install` succeeds. -/
structure InstallWorld where
  files : List JSString
  cmdOk : JSString → Bool
  npmInstallOk : Bool

/-- The for-loop over the lock-file table: a missing lock file, or an
install failure, is caught and the next entry is tried; the first successful
install ends the loop. -/
def tryLockFilesAux : List (JSString × JSString × List JSString) → InstallWorld →
    List InstallEv × Bool
  | [], _ => ([], false)
  | (lf, cmd, args) :: rest, w =>
    if decide (lf ∈ w.files) then
      if w.cmdOk lf then ([InstallEv.run cmd args true], true)
      else
        let r := tryLockFilesAux rest w
        (InstallEv.run cmd args false :: r.1, r.2)
    else tryLockFilesAux rest w

/-- `installDependencies`: try the lock-file table; when no attempt
succeeded and `package.json` exists, run the fallback `npm install` (its
failure is caught too); every path resolves successfully. -/
def installDependencies (w : InstallWorld) : List InstallEv × Except JSString Unit :=
  let r := tryLockFilesAux lockFileTable w
  if r.2 = true then (r.1, Except.ok ())
  else if decide (str "package.json" ∈ w.files) then
    (r.1 ++ [InstallEv.run (str "npm") [str "install"] w.npmInstallOk], Except.ok ())
  else (r.1, Except.ok ())

/-! ## Orchestrator (src/src/services/claude.ts + src/src/run-orchestration.tsx)

The three orchestration flows are embedded as state transformers over the
store plus an ordered event trace.  The outcome of every awaited external
call (git, the agent subprocess, network) is supplied by an oracle record:
`Except.error msg` means the awaited promise rejected with that message.
Toast notifications are omitted (`safeShowToast` swallows all failures and
touches no modeled state), and the Figma context helpers are the no-op stubs
of the source. -/

/-- Observable events of an orchestration run, in program order. -/
inductive Ev where
  | log (key message : JSString)
  | storeStatus (key : JSString) (st : TaskStatus)
  | extCreateWorktree
  | extTransitionIssue (target : JSString)
  | extAddIssueComment
  | extInstallDeps
  | extEnsurePlanDir
  | extRunClaude
  | extCommitAll
  | extPush
  | extPullRebase
  | extCreatePR
  | extAddPRComment
  | extFetchPRMeta
  | extMarkComments
  | storeSaveParams (key : JSString)
  | storeClearParams (key : JSString)
  | storeClearCancel (key : JSString)
deriving DecidableEq

/-- State threaded through a run: the store plus the trace so far. -/
structure OrchState where
  store : Store
  trace : List Ev
deriving DecidableEq

/-- A step of an orchestration flow: given the state, produce the new state
and either a value or the message of a raised error. -/
def OrchM (α : Type) : Type := OrchState → OrchState × Except JSString α

/-- Monadic return. -/
def OrchM.pure (a : α) : OrchM α := fun s => (s, Except.ok a)

/-- Sequencing: an error short-circuits to the surrounding catch. -/
def OrchM.bind (m : OrchM α) (f : α → OrchM β) : OrchM β := fun s =>
  match m s with
  | (s1, Except.ok a) => f a s1
  | (s1, Except.error e) => (s1, Except.error e)

/-- Per-run context: `Date.now()`, the local-time text, and the issue key
the flow writes under. -/
structure RunCtx where
  now : Nat
  tm : JSString
  key : JSString
deriving DecidableEq

/-- An `appendProgressLog` call. -/
def logStep (ctx : RunCtx) (message : JSString) : OrchM Unit := fun s =>
  ({ store := appendProgressLog ctx.now ctx.tm s.store ctx.key message
     trace := s.trace ++ [Ev.log ctx.key message] }, Except.ok ())

/-- An `updateTaskStatus` call. -/
def statusStep (ctx : RunCtx) (st : TaskStatus) (p : TaskPatch) : OrchM Unit := fun s =>
  ({ store := (updateTaskStatus ctx.now s.store ctx.key st p).1
     trace := s.trace ++ [Ev.storeStatus ctx.key st] }, Except.ok ())

/-- An awaited external call: records its event; the oracle decides whether
it resolves or rejects. -/
def extStep (e : Ev) (r : Except JSString α) : OrchM α := fun s =>
  ({ s with trace := s.trace ++ [e] }, r)

/-- `try { let a = await m; onOk a } catch (e) { onErr e }` where the catch
swallows the error (the warn-and-continue pattern of the source). -/
def tryCatch (m : OrchM α) (onOk : α → OrchM Unit) (onErr : JSString → OrchM Unit) :
    OrchM Unit := fun s =>
  match m s with
  | (s1, Except.ok a) => onOk a s1
  | (s1, Except.error e) => onErr e s1

/-- The result extracted from the terminal agent event. -/
structure ClaudeResult where
  sessionId : Option JSString
  costUsd : Rat
deriving DecidableEq

/-- The created pull request. -/
structure PRInfo where
  htmlUrl : JSString
  number : Nat
deriving DecidableEq

/-- JS `String.prototype.trim` whitespace test (space and the ASCII control
whitespace range; the claims only need "is the string all-whitespace"). -/
def isJsSpace (c : Nat) : Bool := decide (c = 32) || (decide (9 ≤ c) && decide (c ≤ 13))

/-- JS `trim`. -/
def trimJS (s : JSString) : JSString :=
  ((s.dropWhile isJsSpace).reverse.dropWhile isJsSpace).reverse

/-- Stand-in for `Number.prototype.toFixed(2)`: renders the rational
exactly; no claim depends on the rendered digits. -/
def toFixed2 (c : Rat) : JSString := str (toString c.num) ++ str "/" ++ str (toString c.den)

/-- The issue snapshot handed to the implement/plan flows. -/
structure LinearIssue where
  id : JSString
  identifier : JSString
  title : JSString
  url : JSString
  description : Option JSString
deriving DecidableEq

/-- Oracle for `orchestrateImplementation`: one entry per awaited external
call, in flow order, plus the plan-file probe. -/
structure ImplOracle where
  createWorktree : Except JSString JSString
  transitionInProgress : Except JSString Unit
  addContextComment : Except JSString Unit
  installDeps : Except JSString Unit
  existingPlan : Option JSString
  runClaude : Except JSString ClaudeResult
  commitAll : Except JSString Bool
  push : Except JSString Unit
  createPR : Except JSString PRInfo
  transitionInReview : Except JSString Unit
  addDoneComment : Except JSString Unit

/-- The try-block of `orchestrateImplementation` (src/src/services/claude.ts
lines 79-261), step for step, as an explicit bind chain. -/
def implBody (o : ImplOracle) (ctx : RunCtx) (userInstructions : JSString) :
    OrchM Unit :=
  OrchM.bind (logStep ctx (str "Creating git worktree...")) (fun _ =>
  OrchM.bind (extStep Ev.extCreateWorktree o.createWorktree) (fun worktreePath =>
  OrchM.bind (statusStep ctx TaskStatus.worktree_created
    { TaskPatch.none with worktreePath := some worktreePath }) (fun _ =>
  OrchM.bind (logStep ctx (str "Worktree created at " ++ worktreePath)) (fun _ =>
  OrchM.bind (tryCatch
    (extStep (Ev.extTransitionIssue (str "In Progress")) o.transitionInProgress)
    (fun _ => logStep ctx (str "Linear issue moved to In Progress"))
    (fun _ => logStep ctx
      (str "Warning: Failed to transition Linear issue to In Progress"))) (fun _ =>
  OrchM.bind (if trimJS userInstructions ≠ [] then
    tryCatch (extStep Ev.extAddIssueComment o.addContextComment)
      (fun _ => logStep ctx (str "Extra context posted to Linear"))
      (fun _ => logStep ctx (str "Warning: Failed to post extra context to Linear"))
    else OrchM.pure ()) (fun _ =>
  OrchM.bind (logStep ctx (str "Installing dependencies...")) (fun _ =>
  OrchM.bind (extStep Ev.extInstallDeps o.installDeps) (fun _ =>
  OrchM.bind (statusStep ctx TaskStatus.dependencies_installed TaskPatch.none) (fun _ =>
  OrchM.bind (logStep ctx (str "Dependencies installed")) (fun _ =>
  OrchM.bind (statusStep ctx TaskStatus.implementing TaskPatch.none) (fun _ =>
  OrchM.bind (logStep ctx (str "Starting Claude Code implementation...")) (fun _ =>
  OrchM.bind (if o.existingPlan.isSome then
    logStep ctx (str "Found existing plan file - including in prompt")
    else OrchM.pure ()) (fun _ =>
  OrchM.bind (extStep Ev.extRunClaude o.runClaude) (fun result =>
  OrchM.bind (statusStep ctx TaskStatus.implementation_complete
    { TaskPatch.none with claudeSessionId := some result.sessionId
                          costUsd := some (some result.costUsd) }) (fun _ =>
  OrchM.bind (logStep ctx
    (str "Implementation complete (cost: $" ++ toFixed2 result.costUsd ++ str ")")) (fun _ =>
  OrchM.bind (statusStep ctx TaskStatus.pushing TaskPatch.none) (fun _ =>
  OrchM.bind (extStep Ev.extCommitAll o.commitAll) (fun didCommit =>
  OrchM.bind (if didCommit then
    logStep ctx (str "Committed remaining uncommitted changes")
    else OrchM.pure ()) (fun _ =>
  OrchM.bind (logStep ctx (str "Pushing branch to origin...")) (fun _ =>
  OrchM.bind (extStep Ev.extPush o.push) (fun _ =>
  OrchM.bind (logStep ctx (str "Branch pushed")) (fun _ =>
  OrchM.bind (logStep ctx (str "Creating pull request...")) (fun _ =>
  OrchM.bind (extStep Ev.extCreatePR o.createPR) (fun pr =>
  OrchM.bind (statusStep ctx TaskStatus.pr_created
    { TaskPatch.none with prUrl := some (some pr.htmlUrl)
                          prNumber := some (some pr.number) }) (fun _ =>
  OrchM.bind (logStep ctx (str "PR created: " ++ pr.htmlUrl)) (fun _ =>
  OrchM.bind (tryCatch
    (extStep (Ev.extTransitionIssue (str "In Review")) o.transitionInReview)
    (fun _ => logStep ctx (str "Linear issue moved to In Review"))
    (fun _ => logStep ctx
      (str "Warning: Failed to transition Linear issue to In Review"))) (fun _ =>
  OrchM.bind (tryCatch (extStep Ev.extAddIssueComment o.addDoneComment)
    (fun _ => logStep ctx (str "Linear comment added"))
    (fun _ => logStep ctx (str "Warning: Failed to add Linear comment"))) (fun _ =>
  OrchM.bind (statusStep ctx TaskStatus.complete TaskPatch.none) (fun _ =>
  logStep ctx (str "Task complete!"))))))))))))))))))))))))))))))

/-- The catch handler shared by all three flows: `cancelled` when the
cancellation token was triggered, else `error` with the message verbatim. -/
def catchHandler (ctx : RunCtx) (aborted : Bool) (msg : JSString)
    (s : OrchState) : OrchState :=
  if aborted then
    ((logStep ctx (str "Task cancelled by user"))
      ((statusStep ctx TaskStatus.cancelled TaskPatch.none s).1)).1
  else
    ((logStep ctx (str "Error: " ++ msg))
      ((statusStep ctx TaskStatus.error
        { TaskPatch.none with error := some (some msg) } s).1)).1

/-- `orchestrateImplementation`: run the body under the try/catch; returns
the final state and the caught error message, if any. -/
def orchestrateImplementation (o : ImplOracle) (aborted : Bool) (now : Nat)
    (tm : JSString) (issue : LinearIssue) (userInstructions : JSString)
    (s : OrchState) : OrchState × Option JSString :=
  match implBody o { now := now, tm := tm, key := issue.identifier } userInstructions s with
  | (s1, Except.ok _) => (s1, Option.none)
  | (s1, Except.error msg) =>
      (catchHandler { now := now, tm := tm, key := issue.identifier } aborted msg s1, some msg)

/-- Oracle for `orchestratePlan`. -/
structure PlanOracle where
  createWorktree : Except JSString JSString
  transitionInProgress : Except JSString Unit
  addContextComment : Except JSString Unit
  installDeps : Except JSString Unit
  ensurePlanDir : Except JSString Unit
  existingPlan : Option JSString
  runClaude : Except JSString ClaudeResult

/-- `getPlanFilePath`. -/
def getPlanFilePath (cfg : AppConfig) (branchName : JSString) : JSString :=
  pathJoin cfg.planFilesPath (branchName ++ str "-plan.md")

/-- The try-block of `orchestratePlan` (src/src/services/claude.ts lines
307-445), as an explicit bind chain. -/
def planBody (cfg : AppConfig) (o : PlanOracle) (ctx : RunCtx)
    (userInstructions branchName : JSString) (updateExistingPlan : Bool) :
    OrchM Unit :=
  OrchM.bind (logStep ctx (str "Creating git worktree...")) (fun _ =>
  OrchM.bind (extStep Ev.extCreateWorktree o.createWorktree) (fun worktreePath =>
  OrchM.bind (statusStep ctx TaskStatus.worktree_created
    { TaskPatch.none with worktreePath := some worktreePath }) (fun _ =>
  OrchM.bind (logStep ctx (str "Worktree created at " ++ worktreePath)) (fun _ =>
  OrchM.bind (tryCatch
    (extStep (Ev.extTransitionIssue (str "In Progress")) o.transitionInProgress)
    (fun _ => logStep ctx (str "Linear issue moved to In Progress"))
    (fun _ => logStep ctx
      (str "Warning: Failed to transition Linear issue to In Progress"))) (fun _ =>
  OrchM.bind (if trimJS userInstructions ≠ [] then
    tryCatch (extStep Ev.extAddIssueComment o.addContextComment)
      (fun _ => logStep ctx (str "Extra context posted to Linear"))
      (fun _ => logStep ctx (str "Warning: Failed to post extra context to Linear"))
    else OrchM.pure ()) (fun _ =>
  OrchM.bind (logStep ctx (str "Installing dependencies...")) (fun _ =>
  OrchM.bind (extStep Ev.extInstallDeps o.installDeps) (fun _ =>
  OrchM.bind (statusStep ctx TaskStatus.dependencies_installed TaskPatch.none) (fun _ =>
  OrchM.bind (logStep ctx (str "Dependencies installed")) (fun _ =>
  OrchM.bind (statusStep ctx TaskStatus.planning TaskPatch.none) (fun _ =>
  OrchM.bind (extStep Ev.extEnsurePlanDir o.ensurePlanDir) (fun _ =>
  OrchM.bind (if updateExistingPlan then
      (if o.existingPlan.isSome then
        logStep ctx (str "Updating existing plan based on feedback...")
      else logStep ctx (str "No existing plan found, creating new plan..."))
    else logStep ctx (str "Starting Claude Code planning session...")) (fun _ =>
  OrchM.bind (extStep Ev.extRunClaude o.runClaude) (fun result =>
  OrchM.bind (statusStep ctx TaskStatus.plan_complete
    { TaskPatch.none with claudeSessionId := some result.sessionId
                          costUsd := some (some result.costUsd) }) (fun _ =>
  logStep ctx (str "Plan complete (cost: $" ++ toFixed2 result.costUsd
    ++ str "). Plan file: " ++ getPlanFilePath cfg branchName))))))))))))))))

/-- `orchestratePlan` under its try/catch. -/
def orchestratePlan (cfg : AppConfig) (o : PlanOracle) (aborted : Bool) (now : Nat)
    (tm : JSString) (issue : LinearIssue) (userInstructions branchName : JSString)
    (updateExistingPlan : Bool) (s : OrchState) : OrchState × Option JSString :=
  match planBody cfg o { now := now, tm := tm, key := issue.identifier } userInstructions
      branchName updateExistingPlan s with
  | (s1, Except.ok _) => (s1, Option.none)
  | (s1, Except.error msg) =>
      (catchHandler { now := now, tm := tm, key := issue.identifier } aborted msg s1, some msg)

/-- Oracle for `orchestrateFeedback`. -/
structure FeedbackOracle where
  addPRComment : Except JSString Unit
  worktreeAccessible : Bool
  createWorktree : Except JSString JSString
  commitLocal : Except JSString Bool
  pull : Except JSString Unit
  fetchPRMeta : Except JSString (JSString × Option JSString)
  runClaude : Except JSString ClaudeResult
  commitAll : Except JSString Bool
  push : Except JSString Unit
  markComments : Except JSString Nat

/-- The try-block of `orchestrateFeedback` (src/src/services/claude.ts lines
491-627), as an explicit bind chain.  The initial PR-comment post is not
wrapped in an inner try/catch: its failure propagates to the main catch. -/
def feedbackBody (o : FeedbackOracle) (ctx : RunCtx) (task : TaskState)
    (feedbackText : JSString) (postAsComment : Bool) : OrchM Unit :=
  OrchM.bind (if postAsComment ∧ 0 < (trimJS feedbackText).length ∧ task.prNumber.isSome then
    OrchM.bind (extStep Ev.extAddPRComment o.addPRComment) (fun _ =>
      logStep ctx (str "Feedback posted as GitHub comment"))
    else OrchM.pure ()) (fun _ =>
  OrchM.bind (if o.worktreeAccessible = false then
    OrchM.bind (logStep ctx (str "Recreating worktree...")) (fun _ =>
    OrchM.bind (extStep Ev.extCreateWorktree o.createWorktree) (fun wp =>
    statusStep ctx TaskStatus.worktree_created
      { TaskPatch.none with worktreePath := some wp }))
    else OrchM.pure ()) (fun _ =>
  OrchM.bind (extStep Ev.extCommitAll o.commitLocal) (fun hadLocalChanges =>
  OrchM.bind (if hadLocalChanges then
    logStep ctx (str "Committed uncommitted local changes")
    else OrchM.pure ()) (fun _ =>
  OrchM.bind (logStep ctx (str "Pulling latest changes from origin...")) (fun _ =>
  OrchM.bind (tryCatch (extStep Ev.extPullRebase o.pull)
    (fun _ => logStep ctx (str "Branch synced with origin"))
    (fun msg => logStep ctx
      (str "Warning: Pull failed (" ++ msg ++ str "). Continuing with local state."))) (fun _ =>
  OrchM.bind (if task.prNumber.isSome then
    tryCatch (extStep Ev.extFetchPRMeta o.fetchPRMeta)
      (fun _ => OrchM.pure ()) (fun _ => OrchM.pure ())
    else OrchM.pure ()) (fun _ =>
  OrchM.bind (OrchM.pure (if task.prNumber.isSome then
      (match o.fetchPRMeta with
        | Except.ok m => some m
        | Except.error _ => Option.none)
    else (Option.none : Option (JSString × Option JSString)))) (fun meta =>
  OrchM.bind (statusStep ctx TaskStatus.feedback_implementing TaskPatch.none) (fun _ =>
  OrchM.bind (logStep ctx (str "Starting Claude Code for feedback...")) (fun _ =>
  OrchM.bind (extStep Ev.extRunClaude o.runClaude) (fun result =>
  OrchM.bind (statusStep ctx TaskStatus.pushing
    { TaskPatch.none with claudeSessionId := some result.sessionId
                          costUsd := some (some (task.costUsd.getD 0 + result.costUsd)) }) (fun _ =>
  OrchM.bind (logStep ctx (str "Feedback implemented, committing & pushing...")) (fun _ =>
  OrchM.bind (extStep Ev.extCommitAll o.commitAll) (fun didCommit =>
  OrchM.bind (if didCommit then
    logStep ctx (str "Committed remaining uncommitted changes")
    else OrchM.pure ()) (fun _ =>
  OrchM.bind (extStep Ev.extPush o.push) (fun _ =>
  OrchM.bind (logStep ctx (str "Feedback changes pushed")) (fun _ =>
  OrchM.bind (if task.prNumber.isSome ∧ (meta.map (fun m => m.2.isSome)).getD false then
    tryCatch (extStep Ev.extMarkComments o.markComments)
      (fun n => if 0 < n then
          logStep ctx (str "Marked comment(s) as addressed")
        else OrchM.pure ())
      (fun _ => logStep ctx (str "Warning: Could not mark comments as addressed"))
    else OrchM.pure ()) (fun _ =>
  statusStep ctx TaskStatus.complete TaskPatch.none))))))))))))))))))

/-- `orchestrateFeedback` under its try/catch; writes under the fetched
record's own issue key. -/
def orchestrateFeedback (o : FeedbackOracle) (aborted : Bool) (now : Nat)
    (tm : JSString) (task : TaskState) (feedbackText : JSString)
    (postAsComment : Bool) (s : OrchState) : OrchState × Option JSString :=
  match feedbackBody o { now := now, tm := tm, key := task.jiraKey } task feedbackText
      postAsComment s with
  | (s1, Except.ok _) => (s1, Option.none)
  | (s1, Except.error msg) =>
      (catchHandler { now := now, tm := tm, key := task.jiraKey } aborted msg s1, some msg)

/-- The mode tag of stored parameters. -/
def ParamsAbs.isPlanMode : ParamsAbs → Bool
  | ParamsAbs.plan _ _ _ _ _ _ _ _ _ _ => true
  | _ => false

/-- `RunOrchestration` (src/src/run-orchestration.tsx): read the stored
parameters for the launch key (returning before the try block when absent),
dispatch on the mode inside the try block (an unknown repository or missing
feedback record returns early but still runs the finally block), after a
plan run save implement-mode parameters for the follow-up, and in the
finally block clear the parameters for every mode except `plan` and always
clear the cancellation flag.  Returns the final state and the error message
the inner flow caught, if any. -/
def runOrchestration (cfg : AppConfig) (repos : List RepoConfig)
    (oPlan : PlanOracle) (oImpl : ImplOracle) (oFb : FeedbackOracle)
    (aborted : Bool) (now : Nat) (tm : JSString) (launchKey : JSString)
    (s0 : Store) : OrchState × Option JSString :=
  match getOrchestrationParams s0 launchKey with
  | Option.none => ({ store := s0, trace := [] }, Option.none)
  | some params =>
    let afterTry : OrchState × Option JSString :=
      match params with
      | ParamsAbs.plan iid ident ititle iurl idesc repoName branchName baseBranch uinstr upd =>
        match repos.find? (fun r => decide (r.name = repoName)) with
        | Option.none => ({ store := s0, trace := [] }, Option.none)
        | some _ =>
          let issue : LinearIssue :=
            { id := iid, identifier := ident, title := ititle, url := iurl
              description := idesc }
          let r := orchestratePlan cfg oPlan aborted now tm issue uinstr branchName upd
            { store := s0, trace := [] }
          ({ store := saveOrchestrationParams r.1.store launchKey
              (ParamsAbs.implement iid ident ititle iurl idesc repoName branchName
                baseBranch uinstr)
             trace := r.1.trace ++ [Ev.storeSaveParams launchKey] }, r.2)
      | ParamsAbs.implement iid ident ititle iurl idesc repoName _ _ uinstr =>
        match repos.find? (fun r => decide (r.name = repoName)) with
        | Option.none => ({ store := s0, trace := [] }, Option.none)
        | some _ =>
          let issue : LinearIssue :=
            { id := iid, identifier := ident, title := ititle, url := iurl
              description := idesc }
          orchestrateImplementation oImpl aborted now tm issue uinstr
            { store := s0, trace := [] }
      | ParamsAbs.feedback fkey repoName ftext post _ =>
        match repos.find? (fun r => decide (r.name = repoName)) with
        | Option.none => ({ store := s0, trace := [] }, Option.none)
        | some _ =>
          match getTask s0 fkey with
          | Option.none => ({ store := s0, trace := [] }, Option.none)
          | some task =>
            orchestrateFeedback oFb aborted now tm task ftext post
              { store := s0, trace := [] }
    let s3 : OrchState :=
      if params.isPlanMode = false then
        { store := clearOrchestrationParams afterTry.1.store launchKey
          trace := afterTry.1.trace ++ [Ev.storeClearParams launchKey] }
      else afterTry.1
    ({ store := clearCancellation s3.store launchKey
       trace := s3.trace ++ [Ev.storeClearCancel launchKey] }, afterTry.2)

/-- Index of the first occurrence of an event in a trace. -/
def firstIdxOf (tr : List Ev) (e : Ev) : Option Nat :=
  tr.findIdx? (fun x => decide (x = e))

/-- The implement-flow transitions paired with their corresponding
side-effecting work. -/
def statusWorkPairs : List (TaskStatus × Ev) :=
  [(TaskStatus.worktree_created, Ev.extCreateWorktree),
   (TaskStatus.dependencies_installed, Ev.extInstallDeps),
   (TaskStatus.implementing, Ev.extRunClaude),
   (TaskStatus.pushing, Ev.extPush),
   (TaskStatus.pr_created, Ev.extCreatePR)]

/-- The claim of C8 as stated: for every transition of the implement flow
the status write occurs in the trace before the corresponding work. -/
def statusWrittenBeforeWork (tr : List Ev) (key : JSString) : Bool :=
  statusWorkPairs.all (fun p =>
    match firstIdxOf tr (Ev.storeStatus key p.1), firstIdxOf tr p.2 with
    | some i, some j => decide (i < j)
    | _, _ => true)

/-- The exact event sequence of an implement run in which every awaited
call resolves. -/
def implAllOkTrace (key wp ui : JSString) (plan : Option JSString)
    (costUsd : Rat) (dc : Bool) (prUrl : JSString) : List Ev :=
  [Ev.log key (str "Creating git worktree..."), Ev.extCreateWorktree,
   Ev.storeStatus key TaskStatus.worktree_created,
   Ev.log key (str "Worktree created at " ++ wp),
   Ev.extTransitionIssue (str "In Progress"),
   Ev.log key (str "Linear issue moved to In Progress")]
  ++ (if trimJS ui ≠ [] then
      [Ev.extAddIssueComment, Ev.log key (str "Extra context posted to Linear")]
    else [])
  ++ [Ev.log key (str "Installing dependencies..."), Ev.extInstallDeps,
      Ev.storeStatus key TaskStatus.dependencies_installed,
      Ev.log key (str "Dependencies installed"),
      Ev.storeStatus key TaskStatus.implementing,
      Ev.log key (str "Starting Claude Code implementation...")]
  ++ (if plan.isSome then
      [Ev.log key (str "Found existing plan file - including in prompt")]
    else [])
  ++ [Ev.extRunClaude, Ev.storeStatus key TaskStatus.implementation_complete,
      Ev.log key (str "Implementation complete (cost: $" ++ toFixed2 costUsd ++ str ")"),
      Ev.storeStatus key TaskStatus.pushing, Ev.extCommitAll]
  ++ (if dc then [Ev.log key (str "Committed remaining uncommitted changes")] else [])
  ++ [Ev.log key (str "Pushing branch to origin..."), Ev.extPush,
      Ev.log key (str "Branch pushed"), Ev.log key (str "Creating pull request..."),
      Ev.extCreatePR, Ev.storeStatus key TaskStatus.pr_created,
      Ev.log key (str "PR created: " ++ prUrl),
      Ev.extTransitionIssue (str "In Review"),
      Ev.log key (str "Linear issue moved to In Review"),
      Ev.extAddIssueComment, Ev.log key (str "Linear comment added"),
      Ev.storeStatus key TaskStatus.complete, Ev.log key (str "Task complete!")]

/-- The key a flow writes its task-record updates under, as determined by
the stored parameters: the issue identifier for plan/implement, the stored
issue key for feedback. -/
def ParamsAbs.writeKey : ParamsAbs → JSString
  | ParamsAbs.plan _ ident _ _ _ _ _ _ _ _ => ident
  | ParamsAbs.implement _ ident _ _ _ _ _ _ _ => ident
  | ParamsAbs.feedback fkey _ _ _ _ => fkey

/-- A well-keyed task record for `key` is present in the store. -/
def TaskPresent (key : JSString) (s : OrchState) : Prop :=
  ∃ t : TaskState, getTask s.store key = some t ∧ t.jiraKey = key

/-- The step keeps a well-keyed record for `key` present (on the state it
hands to its continuation or to the surrounding catch). -/
def PreservesTask (key : JSString) (m : OrchM α) : Prop :=
  ∀ s : OrchState, TaskPresent key s → TaskPresent key (m s).1

/-! ## Concrete sample values used by witness statements -/

/-- A sample configuration. -/
def sampleCfg : AppConfig :=
  { githubOwner := str "zerts", worktreeBasePath := str "wt"
    planFilesPath := str "plans", gitAuthorName := str "AutoZerts"
    gitAuthorEmail := str "a@b" }

/-- A sample install world: only a bun lock file whose install fails. -/
def instWorld0 : InstallWorld :=
  { files := [str "bun.lockb"], cmdOk := fun _ => false, npmInstallOk := true }

/-- The sample issue snapshot. -/
def sampleIssue : LinearIssue :=
  { id := str "id1", identifier := str "K-1", title := str "demo", url := str "u"
    description := Option.none }

/-- A sample repository configuration. -/
def repo0 : RepoConfig :=
  { name := str "svc", localPath := str "lp", defaultBranch := str "main" }

/-- A git world where branch `b` already exists upstream. -/
def gitWorld1 : GitWorld := { existingPaths := [], remoteBranches := [str "b"] }

/-- A git world with no upstream branch `b`. -/
def gitWorld2 : GitWorld := { existingPaths := [], remoteBranches := [] }

/-- A sample task record. -/
def sampleTask : TaskState :=
  { taskId := str "K-1", jiraKey := str "K-1", jiraSummary := str "demo"
    jiraUrl := str "u", repoName := str "svc", branchName := str "b"
    worktreePath := str "w", baseBranch := str "main"
    status := TaskStatus.initializing, claudeSessionId := Option.none
    prUrl := Option.none, prNumber := Option.none, error := Option.none
    costUsd := Option.none, createdAt := 0, updatedAt := 0, progressLog := [] }

/-- A store holding only `sampleTask`. -/
def sampleStore : Store := [(taskNS ++ str "K-1", StoredString.taskText sampleTask)]

/-- Stored implement-mode parameters for the sample task. -/
def paramsC1 : ParamsAbs :=
  ParamsAbs.implement (str "id1") (str "K-1") (str "demo") (str "u") Option.none
    (str "svc") (str "b") (str "main") (str "")

/-- A store holding the sample task and implement-mode parameters. -/
def storeC1 : Store :=
  [(taskNS ++ str "K-1", StoredString.taskText sampleTask),
   (orchNS ++ str "K-1", StoredString.paramsText paramsC1)]

/-- An implement oracle whose first step (worktree creation) rejects. -/
def implOracleFail : ImplOracle :=
  { createWorktree := Except.error (str "boom")
    transitionInProgress := Except.ok (), addContextComment := Except.ok ()
    installDeps := Except.ok (), existingPlan := Option.none
    runClaude := Except.ok { sessionId := some (str "s"), costUsd := 0 }
    commitAll := Except.ok false, push := Except.ok ()
    createPR := Except.ok { htmlUrl := str "pru", number := 1 }
    transitionInReview := Except.ok (), addDoneComment := Except.ok () }

/-- An implement oracle in which every awaited call resolves. -/
def implOracleOk : ImplOracle :=
  { createWorktree := Except.ok (str "wt/p")
    transitionInProgress := Except.ok (), addContextComment := Except.ok ()
    installDeps := Except.ok (), existingPlan := Option.none
    runClaude := Except.ok { sessionId := some (str "s"), costUsd := 0 }
    commitAll := Except.ok false, push := Except.ok ()
    createPR := Except.ok { htmlUrl := str "pru", number := 1 }
    transitionInReview := Except.ok (), addDoneComment := Except.ok () }

/-- A plan oracle in which every awaited call resolves. -/
def planOracle0 : PlanOracle :=
  { createWorktree := Except.ok (str "wt/p")
    transitionInProgress := Except.ok (), addContextComment := Except.ok ()
    installDeps := Except.ok (), ensurePlanDir := Except.ok ()
    existingPlan := Option.none
    runClaude := Except.ok { sessionId := some (str "s"), costUsd := 0 } }

/-- A feedback oracle in which every awaited call resolves. -/
def fbOracle0 : FeedbackOracle :=
  { addPRComment := Except.ok (), worktreeAccessible := true
    createWorktree := Except.ok (str "wt/p"), commitLocal := Except.ok false
    pull := Except.ok (), fetchPRMeta := Except.ok (str "author", some (str "date"))
    runClaude := Except.ok { sessionId := some (str "s"), costUsd := 0 }
    commitAll := Except.ok false, push := Except.ok ()
    markComments := Except.ok 0 }


/-! ## Lemmas about the surrogate sanitizer -/

theorem not_high_of_low {c : Nat} (h : isLowSurrogate c = true) : isHighSurrogate c = false := by
  simp [isLowSurrogate, isHighSurrogate] at *
  omega

theorem not_low_of_high {c : Nat} (h : isHighSurrogate c = true) : isLowSurrogate c = false := by
  simp [isLowSurrogate, isHighSurrogate] at *
  omega

theorem replacement_not_high : isHighSurrogate replacementChar = false := by decide

theorem replacement_not_low : isLowSurrogate replacementChar = false := by decide

theorem zero_not_low : isLowSurrogate 0 = false := by decide

/-- The sanitizer on a non-surrogate head just copies it. -/
theorem sanitizeUnicode_cons_plain {c : Nat} (h1 : isHighSurrogate c = false)
    (h2 : isLowSurrogate c = false) (l : JSString) :
    sanitizeUnicode (c :: l) = c :: sanitizeUnicode l := by
  cases l with
  | nil => simp [sanitizeUnicode, h1, h2]
  | cons b bs => simp [sanitizeUnicode, h1, h2]

/-- The sanitizer on a bare low-surrogate head replaces it. -/
theorem sanitizeUnicode_cons_low {c : Nat} (h2 : isLowSurrogate c = true) (l : JSString) :
    sanitizeUnicode (c :: l) = replacementChar :: sanitizeUnicode l := by
  cases l with
  | nil => simp [sanitizeUnicode, not_high_of_low h2, h2]
  | cons b bs => simp [sanitizeUnicode, not_high_of_low h2, h2]

theorem sanitizeUnicode_length : ∀ l : JSString, (sanitizeUnicode l).length = l.length
  | [] => by simp [sanitizeUnicode]
  | [c] => by
      by_cases h1 : isHighSurrogate c <;> by_cases h2 : isLowSurrogate c <;>
        simp [sanitizeUnicode, h1, h2]
  | c :: c2 :: rest2 => by
      have ih1 := sanitizeUnicode_length rest2
      have ih2 := sanitizeUnicode_length (c2 :: rest2)
      by_cases h1 : isHighSurrogate c
      · by_cases h2 : isLowSurrogate c2 <;> simp [sanitizeUnicode, h1, h2, ih1, ih2]
      · by_cases h2 : isLowSurrogate c <;> simp [sanitizeUnicode, h1, h2, ih2]

/-- Shifting `unpairedSurrogateAt` past a head element at positions ≥ 2. -/
theorem unpairedSurrogateAt_cons_succ (c : Nat) (rest : JSString) (n : Nat) :
    unpairedSurrogateAt (c :: rest) (n + 2) = unpairedSurrogateAt rest (n + 1) := by
  simp only [unpairedSurrogateAt, List.getD_cons_succ]
  have h1 : n + 2 - 1 = n + 1 := by omega
  have h2 : n + 1 - 1 = n := by omega
  rw [h1, h2]
  simp [List.getD_cons_succ]

/-- Shifting `unpairedSurrogateAt` past a head element at position 1, valid
whenever the head cannot pair with the next element. -/
theorem unpairedSurrogateAt_cons_one (c : Nat) (rest : JSString)
    (h : isHighSurrogate c = false ∨ isLowSurrogate (rest.getD 0 0) = false) :
    unpairedSurrogateAt (c :: rest) 1 = unpairedSurrogateAt rest 0 := by
  cases rest with
  | nil => simp [unpairedSurrogateAt, zero_not_low, isHighSurrogate]
  | cons b bs =>
      simp only [List.getD_cons_zero] at h
      by_cases hh : isHighSurrogate b
      · simp [unpairedSurrogateAt, hh]
      · by_cases hl : isLowSurrogate b
        · rcases h with h | h
          · simp [unpairedSurrogateAt, hh, hl, h]
          · simp [hl] at h
        · simp [unpairedSurrogateAt, hh, hl]

/-- Pointwise description of the sanitizer: each unpaired surrogate becomes
U+FFFD and every other unit is copied unchanged. -/
theorem sanitizeUnicode_getD : ∀ (l : JSString) (i : Nat), i < l.length →
    (sanitizeUnicode l).getD i 0 =
      if unpairedSurrogateAt l i then replacementChar else l.getD i 0
  | [], i, h => by simp at h
  | [c], i, h => by
      have hi : i = 0 := by simpa using Nat.lt_one_iff.mp (by simpa using h)
      subst hi
      by_cases h1 : isHighSurrogate c
      · simp [sanitizeUnicode, unpairedSurrogateAt, h1, zero_not_low]
      · by_cases h2 : isLowSurrogate c <;>
          simp [sanitizeUnicode, unpairedSurrogateAt, h1, h2]
  | c :: c2 :: rest2, i, h => by
      by_cases h1 : isHighSurrogate c
      · by_cases h2 : isLowSurrogate c2
        · -- valid surrogate pair: both halves kept
          have e1 : sanitizeUnicode (c :: c2 :: rest2) = c :: c2 :: sanitizeUnicode rest2 := by
            simp [sanitizeUnicode, h1, h2]
          match i with
          | 0 => simp [e1, unpairedSurrogateAt, h1, h2]
          | 1 => simp [e1, unpairedSurrogateAt, h1, h2, not_high_of_low h2]
          | n + 2 =>
            have hn : n < rest2.length := by
              simp only [List.length_cons] at h
              omega
            have ih := sanitizeUnicode_getD rest2 n hn
            have hshift : unpairedSurrogateAt (c :: c2 :: rest2) (n + 2)
                = unpairedSurrogateAt rest2 n := by
              rw [unpairedSurrogateAt_cons_succ]
              match n with
              | 0 => exact unpairedSurrogateAt_cons_one c2 rest2 (Or.inl (not_high_of_low h2))
              | m + 1 => exact unpairedSurrogateAt_cons_succ c2 rest2 m
            rw [e1, List.getD_cons_succ, List.getD_cons_succ, List.getD_cons_succ,
              List.getD_cons_succ, hshift, ih]
        · -- high surrogate not followed by a low one: replaced
          have e1 : sanitizeUnicode (c :: c2 :: rest2)
              = replacementChar :: sanitizeUnicode (c2 :: rest2) := by
            simp [sanitizeUnicode, h1, h2]
          match i with
          | 0 => simp [e1, unpairedSurrogateAt, h1, h2]
          | n + 1 =>
            have hn : n < (c2 :: rest2).length := by
              simp only [List.length_cons] at h ⊢
              omega
            have ih := sanitizeUnicode_getD (c2 :: rest2) n hn
            have hshift : unpairedSurrogateAt (c :: c2 :: rest2) (n + 1)
                = unpairedSurrogateAt (c2 :: rest2) n := by
              match n with
              | 0 => exact unpairedSurrogateAt_cons_one c (c2 :: rest2) (Or.inr (by simpa using h2))
              | m + 1 => exact unpairedSurrogateAt_cons_succ c (c2 :: rest2) m
            rw [e1, List.getD_cons_succ, List.getD_cons_succ, hshift, ih]
      · by_cases h2 : isLowSurrogate c
        · -- bare low surrogate: replaced
          have e1 : sanitizeUnicode (c :: c2 :: rest2)
              = replacementChar :: sanitizeUnicode (c2 :: rest2) := by
            simp [sanitizeUnicode, h1, h2]
          match i with
          | 0 => simp [e1, unpairedSurrogateAt, h1, h2]
          | n + 1 =>
            have hn : n < (c2 :: rest2).length := by
              simp only [List.length_cons] at h ⊢
              omega
            have ih := sanitizeUnicode_getD (c2 :: rest2) n hn
            have hshift : unpairedSurrogateAt (c :: c2 :: rest2) (n + 1)
                = unpairedSurrogateAt (c2 :: rest2) n := by
              match n with
              | 0 => exact unpairedSurrogateAt_cons_one c (c2 :: rest2) (Or.inl (by simpa using h1))
              | m + 1 => exact unpairedSurrogateAt_cons_succ c (c2 :: rest2) m
            rw [e1, List.getD_cons_succ, List.getD_cons_succ, hshift, ih]
        · -- ordinary unit: copied
          have e1 : sanitizeUnicode (c :: c2 :: rest2)
              = c :: sanitizeUnicode (c2 :: rest2) := by
            simp [sanitizeUnicode, h1, h2]
          match i with
          | 0 => simp [e1, unpairedSurrogateAt, h1, h2]
          | n + 1 =>
            have hn : n < (c2 :: rest2).length := by
              simp only [List.length_cons] at h ⊢
              omega
            have ih := sanitizeUnicode_getD (c2 :: rest2) n hn
            have hshift : unpairedSurrogateAt (c :: c2 :: rest2) (n + 1)
                = unpairedSurrogateAt (c2 :: rest2) n := by
              match n with
              | 0 => exact unpairedSurrogateAt_cons_one c (c2 :: rest2) (Or.inl (by simpa using h1))
              | m + 1 => exact unpairedSurrogateAt_cons_succ c (c2 :: rest2) m
            rw [e1, List.getD_cons_succ, List.getD_cons_succ, hshift, ih]

/-- Appending after a plain head leaves `noUnpairedSurrogates` untouched. -/
theorem noUnpairedSurrogates_cons_plain {c : Nat} (h1 : isHighSurrogate c = false)
    (h2 : isLowSurrogate c = false) (l : JSString) :
    noUnpairedSurrogates (c :: l) = noUnpairedSurrogates l := by
  cases l with
  | nil => simp [noUnpairedSurrogates, h1, h2]
  | cons b bs => simp [noUnpairedSurrogates, h1, h2]

/-- The output of the sanitizer never contains an unpaired surrogate. -/
theorem noUnpairedSurrogates_sanitizeUnicode :
    ∀ l : JSString, noUnpairedSurrogates (sanitizeUnicode l) = true
  | [] => by simp [sanitizeUnicode, noUnpairedSurrogates]
  | [c] => by
      by_cases h1 : isHighSurrogate c <;> by_cases h2 : isLowSurrogate c <;>
        simp [sanitizeUnicode, noUnpairedSurrogates, h1, h2,
          replacement_not_high, replacement_not_low]
  | c :: c2 :: rest2 => by
      by_cases h1 : isHighSurrogate c
      · by_cases h2 : isLowSurrogate c2
        · have ih := noUnpairedSurrogates_sanitizeUnicode rest2
          cases hs : sanitizeUnicode rest2 with
          | nil => simp [sanitizeUnicode, h1, h2, noUnpairedSurrogates, hs]
          | cons y ys =>
              rw [hs] at ih
              simp [sanitizeUnicode, h1, h2, noUnpairedSurrogates, hs, ih]
        · have ih := noUnpairedSurrogates_sanitizeUnicode (c2 :: rest2)
          simp [sanitizeUnicode, h1, h2,
            noUnpairedSurrogates_cons_plain replacement_not_high replacement_not_low, ih]
      · by_cases h2 : isLowSurrogate c
        · have ih := noUnpairedSurrogates_sanitizeUnicode (c2 :: rest2)
          simp [sanitizeUnicode, h1, h2,
            noUnpairedSurrogates_cons_plain replacement_not_high replacement_not_low, ih]
        · have ih := noUnpairedSurrogates_sanitizeUnicode (c2 :: rest2)
          simp [sanitizeUnicode, h1, h2,
            noUnpairedSurrogates_cons_plain (by simpa using h1) (by simpa using h2), ih]

/-- On strings without unpaired surrogates the sanitizer is the identity. -/
theorem sanitizeUnicode_of_noUnpaired :
    ∀ l : JSString, noUnpairedSurrogates l = true → sanitizeUnicode l = l
  | [], _ => rfl
  | [c], h => by
      by_cases h1 : isHighSurrogate c <;> by_cases h2 : isLowSurrogate c <;>
        simp_all [sanitizeUnicode, noUnpairedSurrogates, h1, h2]
  | c :: c2 :: rest2, h => by
      by_cases h1 : isHighSurrogate c
      · simp only [noUnpairedSurrogates, h1, if_true, Bool.and_eq_true] at h
        have ih := sanitizeUnicode_of_noUnpaired rest2 h.2
        simp [sanitizeUnicode, h1, h.1, ih]
      · by_cases h2 : isLowSurrogate c
        · simp [noUnpairedSurrogates, h1, h2] at h
        · simp only [noUnpairedSurrogates, h1, h2, if_false] at h
          have ih := sanitizeUnicode_of_noUnpaired (c2 :: rest2) h
          simp [sanitizeUnicode, h1, h2, ih]

/-- Sanitizing is idempotent. -/
theorem sanitizeUnicode_idem (l : JSString) :
    sanitizeUnicode (sanitizeUnicode l) = sanitizeUnicode l :=
  sanitizeUnicode_of_noUnpaired _ (noUnpairedSurrogates_sanitizeUnicode l)

/-- A surrogate-free chunk is copied verbatim in front of the rest. -/
theorem sanitizeUnicode_append_clean :
    ∀ a b : JSString, (∀ c ∈ a, isSurrogate c = false) →
      sanitizeUnicode (a ++ b) = a ++ sanitizeUnicode b
  | [], b, _ => by simp
  | c :: a1, b, h => by
      have hc : isSurrogate c = false := h c (by simp)
      have h1 : isHighSurrogate c = false := by
        simp [isSurrogate, Bool.or_eq_false_iff] at hc
        exact hc.1
      have h2 : isLowSurrogate c = false := by
        simp [isSurrogate, Bool.or_eq_false_iff] at hc
        exact hc.2
      have ih := sanitizeUnicode_append_clean a1 b (fun x hx => h x (by simp [hx]))
      simp [sanitizeUnicode_cons_plain h1 h2, ih]

/-! ## Lemmas about the LocalStorage model -/

theorem lsGetItem_nil (k : JSString) : lsGetItem [] k = Option.none := rfl

theorem lsGetItem_cons (a : JSString × StoredString) (tl : Store) (k : JSString) :
    lsGetItem (a :: tl) k = if a.1 = k then some a.2 else lsGetItem tl k := by
  unfold lsGetItem
  by_cases h : a.1 = k
  · rw [List.find?_cons_of_pos _ (by simpa using h), if_pos h]
    rfl
  · rw [List.find?_cons_of_neg _ (by simpa using h), if_neg h]

theorem lsGetItem_map_set (k : JSString) (v : StoredString) :
    ∀ (s : Store) (k' : JSString),
      lsGetItem (s.map (fun kv => if kv.1 = k then (k, v) else kv)) k' =
        if k' = k then (lsGetItem s k).map (fun _ => v) else lsGetItem s k'
  | [], k' => by by_cases hk : k' = k <;> simp [lsGetItem_nil, hk]
  | a :: tl, k' => by
      have ih := lsGetItem_map_set k v tl k'
      by_cases ha : a.1 = k
      · by_cases hk : k' = k
        · subst hk
          simp [List.map_cons, ha, lsGetItem_cons, ih]
        · have hne : ¬(k = k') := fun h => hk h.symm
          have hne2 : ¬(a.1 = k') := by rw [ha]; exact hne
          simp [List.map_cons, ha, lsGetItem_cons, hne, hne2, ih, hk]
      · by_cases hk : k' = k
        · subst hk
          have hne2 : ¬(a.1 = k') := ha
          simp [List.map_cons, ha, lsGetItem_cons, hne2, ih]
        · by_cases ha' : a.1 = k'
          · simp [List.map_cons, lsGetItem_cons, ha, ha', hk]
          · simp [List.map_cons, ha, lsGetItem_cons, ha', ih, hk]

theorem lsGetItem_append :
    ∀ (s1 s2 : Store) (k : JSString),
      lsGetItem (s1 ++ s2) k =
        match lsGetItem s1 k with
        | some v => some v
        | Option.none => lsGetItem s2 k
  | [], s2, k => by simp [lsGetItem_nil]
  | a :: tl, s2, k => by
      have ih := lsGetItem_append tl s2 k
      by_cases ha : a.1 = k
      · simp [List.cons_append, lsGetItem_cons, ha]
      · simp [List.cons_append, lsGetItem_cons, ha, ih]

theorem any_key_iff :
    ∀ (s : Store) (k : JSString),
      s.any (fun kv => decide (kv.1 = k)) = (lsGetItem s k).isSome
  | [], k => by simp [lsGetItem_nil]
  | a :: tl, k => by
      have ih := any_key_iff tl k
      by_cases ha : a.1 = k
      · simp [List.any_cons, ha, lsGetItem_cons]
      · simp [List.any_cons, ha, lsGetItem_cons, ih]

theorem lsGetItem_lsSetItem (s : Store) (k : JSString) (v : StoredString) (k' : JSString) :
    lsGetItem (lsSetItem s k v) k' = if k' = k then some v else lsGetItem s k' := by
  unfold lsSetItem
  by_cases hany : s.any (fun kv => decide (kv.1 = k)) = true
  · rw [if_pos hany, lsGetItem_map_set]
    have hsome : (lsGetItem s k).isSome := by rw [← any_key_iff]; exact hany
    rcases Option.isSome_iff_exists.mp hsome with ⟨w, hw⟩
    by_cases hk : k' = k
    · simp [hk, hw]
    · simp [hk]
  · rw [if_neg hany, lsGetItem_append]
    have hnone : lsGetItem s k = Option.none := by
      rcases h : lsGetItem s k with _ | w
      · rfl
      · rw [any_key_iff, h] at hany
        simp at hany
    by_cases hk : k' = k
    · subst hk
      rw [hnone]
      simp [lsGetItem_cons]
    · have hk2 : ¬(k = k') := fun hc => hk hc.symm
      rcases h : lsGetItem s k' with _ | w
      · simp [lsGetItem_cons, lsGetItem_nil, hk2, h, hk]
      · simp [hk]

theorem lsGetItem_lsRemoveItem :
    ∀ (s : Store) (k k' : JSString),
      lsGetItem (lsRemoveItem s k) k' =
        if k' = k then Option.none else lsGetItem s k'
  | [], k, k' => by by_cases hk : k' = k <;> simp [lsRemoveItem, lsGetItem_nil, hk]
  | a :: tl, k, k' => by
      have ih := lsGetItem_lsRemoveItem tl k k'
      unfold lsRemoveItem at ih ⊢
      rw [List.filter_cons]
      by_cases ha : a.1 = k
      · rw [if_neg (by simp [ha]), ih]
        by_cases hk : k' = k
        · rw [if_pos hk, if_pos hk]
        · have ha' : ¬(a.1 = k') := by
            rw [ha]
            exact fun hc => hk hc.symm
          rw [if_neg hk, if_neg hk, lsGetItem_cons, if_neg ha']
      · rw [if_pos (by simp [ha]), lsGetItem_cons, lsGetItem_cons]
        by_cases ha' : a.1 = k'
        · have hk : ¬(k' = k) := fun hc => ha (by rw [ha', hc])
          rw [if_pos ha', if_pos ha', if_neg hk]
        · rw [if_neg ha', if_neg ha', ih]

/-- First code unit of a `task:`-namespaced key. -/
theorem head_taskNS (a : JSString) : (taskNS ++ a).getD 0 0 = 116 := rfl

/-- First code unit of an `orch-params:`-namespaced key. -/
theorem head_orchNS (a : JSString) : (orchNS ++ a).getD 0 0 = 111 := rfl

/-- First code unit of a `cancel:`-namespaced key. -/
theorem head_cancelNS (a : JSString) : (cancelNS ++ a).getD 0 0 = 99 := rfl

theorem taskNS_ne_orchNS (a b : JSString) : taskNS ++ a ≠ orchNS ++ b := by
  intro h
  have h0 : (taskNS ++ a).getD 0 0 = (orchNS ++ b).getD 0 0 := by rw [h]
  rw [head_taskNS, head_orchNS] at h0
  omega

theorem taskNS_ne_cancelNS (a b : JSString) : taskNS ++ a ≠ cancelNS ++ b := by
  intro h
  have h0 : (taskNS ++ a).getD 0 0 = (cancelNS ++ b).getD 0 0 := by rw [h]
  rw [head_taskNS, head_cancelNS] at h0
  omega

theorem orchNS_ne_cancelNS (a b : JSString) : orchNS ++ a ≠ cancelNS ++ b := by
  intro h
  have h0 : (orchNS ++ a).getD 0 0 = (cancelNS ++ b).getD 0 0 := by rw [h]
  rw [head_orchNS, head_cancelNS] at h0
  omega

theorem taskNS_append_inj {a b : JSString} (h : taskNS ++ a = taskNS ++ b) : a = b :=
  List.append_cancel_left h

/-! ## Lemmas about the task-record operations -/

theorem getTask_saveTask_self (now : Nat) (s : Store) (t : TaskState) :
    getTask (saveTask now s t) t.jiraKey = some { t with updatedAt := now } := by
  unfold getTask saveTask
  rw [lsGetItem_lsSetItem, if_pos rfl]

theorem getTask_saveTask (now : Nat) (s : Store) (t : TaskState) (key : JSString) :
    getTask (saveTask now s t) key =
      if key = t.jiraKey then some { t with updatedAt := now } else getTask s key := by
  unfold getTask saveTask
  rw [lsGetItem_lsSetItem]
  by_cases hk : key = t.jiraKey
  · subst hk
    rw [if_pos rfl, if_pos rfl]
  · rw [if_neg hk, if_neg (fun h => hk (taskNS_append_inj h))]

theorem getTask_appendProgressLog (now : Nat) (tm : JSString) (s : Store)
    (key msg : JSString) (t : TaskState)
    (h : getTask s key = some t) (hk : t.jiraKey = key) :
    getTask (appendProgressLog now tm s key msg) key =
      some { t with progressLog := pushTrim t.progressLog (formatLogLine tm msg)
                    updatedAt := now } := by
  unfold appendProgressLog
  rw [h]
  rw [getTask_saveTask]
  simp [hk]

/-! ## Trimming lemmas for the progress log -/

theorem pushTrim_eq_tailTrim (log : List JSString) (line : JSString) :
    pushTrim log line = tailTrim 500 (log ++ [line]) := by
  simp only [pushTrim, tailTrim]
  by_cases h : 500 < (log ++ [line]).length
  · rw [if_pos h]
  · rw [if_neg h]
    have h0 : (log ++ [line]).length - 500 = 0 := by omega
    rw [h0, List.drop_zero]

theorem tailTrim_append_tailTrim (n : Nat) (l m : List JSString) :
    tailTrim n (tailTrim n l ++ m) = tailTrim n (l ++ m) := by
  simp only [tailTrim, List.length_append, List.length_drop,
    List.drop_append_eq_append_drop, List.drop_drop]
  congr 2 <;> omega

theorem foldl_pushTrim : ∀ (lines : List JSString), lines ≠ [] → ∀ log : List JSString,
    lines.foldl pushTrim log = tailTrim 500 (log ++ lines)
  | [], h, _ => absurd rfl h
  | [x], _, log => by
      simpa [List.foldl] using pushTrim_eq_tailTrim log x
  | x :: y :: ys, _, log => by
      have ih := foldl_pushTrim (y :: ys) (by simp) (pushTrim log x)
      rw [List.foldl_cons, ih, pushTrim_eq_tailTrim, tailTrim_append_tailTrim]
      congr 1
      simp

theorem tailTrim_length_le (n : Nat) (l : List JSString) : (tailTrim n l).length ≤ n := by
  simp only [tailTrim, List.length_drop]
  omega

theorem tailTrim_append_long (n : Nat) (a b : List JSString) (h : n ≤ b.length) :
    tailTrim n (a ++ b) = b.drop (b.length - n) := by
  simp only [tailTrim, List.length_append, List.drop_append_eq_append_drop]
  rw [List.drop_eq_nil_of_le (by omega : a.length ≤ a.length + b.length - n)]
  rw [List.nil_append]
  congr 1
  omega

theorem tailTrim_getLast? (n : Nat) (l : List JSString) (h : 0 < n) (hl : l ≠ []) :
    (tailTrim n l).getLast? = l.getLast? := by
  unfold tailTrim
  have hlen : 0 < l.length := List.length_pos.mpr hl
  have hlt : l.length - n < l.length := by omega
  rw [List.getLast?_eq_getElem?, List.getLast?_eq_getElem?, List.getElem?_drop,
    List.length_drop]
  congr 1
  omega

theorem pushTrim_getLast? (log : List JSString) (line : JSString) :
    (pushTrim log line).getLast? = some line := by
  rw [pushTrim_eq_tailTrim, tailTrim_getLast? 500 _ (by omega) (by simp)]
  simp

/-! ## Fold of appendProgressLog over a call sequence -/

theorem runAppends_spec :
    ∀ (calls : List (Nat × JSString × JSString)) (s : Store) (key : JSString)
      (t0 : TaskState),
      getTask s key = some t0 → t0.jiraKey = key →
      ∃ t : TaskState, getTask (runAppends s key calls) key = some t
        ∧ t.jiraKey = key
        ∧ t.progressLog =
            (calls.map (fun c => formatLogLine c.2.1 c.2.2)).foldl pushTrim t0.progressLog
  | [], s, key, t0, h, hk => ⟨t0, h, hk, rfl⟩
  | c :: cs, s, key, t0, h, hk => by
      have h1 := getTask_appendProgressLog c.1 c.2.1 s key c.2.2 t0 h hk
      have ih := runAppends_spec cs (appendProgressLog c.1 c.2.1 s key c.2.2) key
        _ h1 (by simpa using hk)
      rcases ih with ⟨t, ht, htk, hlog⟩
      refine ⟨t, ?_, htk, ?_⟩
      · simpa [runAppends, List.foldl_cons] using ht
      · rw [hlog]
        simp [List.map_cons, List.foldl_cons]

/-! ## Claim theorems: storage layer -/

/-- C2: for every task record present in the store (under its own key) and
every sequence of `appendProgressLog` calls for that key, after each call the
progress log holds at most 500 entries, and once more than 500 lines have
been appended it holds exactly the most recent 500 appended lines in append
order. -/
theorem claim_C2_progressLog_bounded :
    ∀ (s : Store) (key : JSString) (t0 : TaskState)
      (calls : List (Nat × JSString × JSString)),
      getTask s key = some t0 → t0.jiraKey = key →
      ∀ i : Nat, 0 < i → i ≤ calls.length →
        ∃ t : TaskState, getTask (runAppends s key (calls.take i)) key = some t
          ∧ t.progressLog.length ≤ 500
          ∧ (500 < i →
              t.progressLog =
                ((calls.take i).map (fun c => formatLogLine c.2.1 c.2.2)).drop (i - 500)) := by
  intro s key t0 calls h hk i hi hile
  rcases runAppends_spec (calls.take i) s key t0 h hk with ⟨t, ht, _, hlog⟩
  have hlen : ((calls.take i).map (fun c => formatLogLine c.2.1 c.2.2)).length = i := by
    simp [List.length_take]
    omega
  have hne : ((calls.take i).map (fun c => formatLogLine c.2.1 c.2.2)) ≠ [] := by
    intro hcontra
    rw [hcontra] at hlen
    simp at hlen
    omega
  have hfold := foldl_pushTrim _ hne t0.progressLog
  refine ⟨t, ht, ?_, ?_⟩
  · rw [hlog, hfold]
    exact tailTrim_length_le 500 _
  · intro h500
    rw [hlog, hfold, tailTrim_append_long 500 _ _ (by omega), hlen]

/-- C2 witness: a concrete record and a single append. -/
theorem claim_C2_witness :
    ∃ t : TaskState,
      getTask (runAppends sampleStore (str "K-1") ([(1, str "tm", str "hello")].take 1))
        (str "K-1") = some t
      ∧ t.progressLog.length ≤ 500
      ∧ (500 < 1 →
          t.progressLog =
            (([(1, str "tm", str "hello")].take 1).map
              (fun c => formatLogLine c.2.1 c.2.2)).drop (1 - 500)) :=
  claim_C2_progressLog_bounded sampleStore (str "K-1") sampleTask
    [(1, str "tm", str "hello")] (by rfl) (by rfl) 1 (by decide) (by decide)

/-- C10: `sanitizeUnicode` is idempotent; equivalently its output never
contains an unpaired surrogate code unit. -/
theorem claim_C10_sanitizeUnicode_idempotent (l : JSString) :
    sanitizeUnicode (sanitizeUnicode l) = sanitizeUnicode l
      ∧ noUnpairedSurrogates (sanitizeUnicode l) = true :=
  ⟨sanitizeUnicode_idem l, noUnpairedSurrogates_sanitizeUnicode l⟩

/-- C3: sanitizing preserves UTF-16 length, replaces exactly the unpaired
surrogate code units with U+FFFD leaving all other units (including both
halves of valid pairs) unchanged; and every line `appendProgressLog` stores
is the timestamp header followed by the sanitized message, hence itself a
fixed point of the sanitizer whenever the timestamp text is surrogate-free. -/
theorem claim_C3_sanitize_spec :
    (∀ l : JSString, (sanitizeUnicode l).length = l.length)
    ∧ (∀ (l : JSString) (i : Nat), i < l.length →
        (sanitizeUnicode l).getD i 0 =
          if unpairedSurrogateAt l i then replacementChar else l.getD i 0)
    ∧ (∀ (now : Nat) (nowTime msg : JSString) (s : Store) (key : JSString)
        (t : TaskState),
        (∀ c ∈ nowTime, isSurrogate c = false) →
        getTask s key = some t → t.jiraKey = key →
        ∃ t2 : TaskState,
          getTask (appendProgressLog now nowTime s key msg) key = some t2
          ∧ t2.progressLog.getLast? = some (formatLogLine nowTime msg)
          ∧ formatLogLine nowTime msg
              = str "[" ++ nowTime ++ str "] " ++ sanitizeUnicode msg
          ∧ sanitizeUnicode (formatLogLine nowTime msg) = formatLogLine nowTime msg) := by
  refine ⟨sanitizeUnicode_length, sanitizeUnicode_getD, ?_⟩
  intro now nowTime msg s key t htime h hk
  refine ⟨_, getTask_appendProgressLog now nowTime s key msg t h hk, ?_, rfl, ?_⟩
  · exact pushTrim_getLast? _ _
  · have hclean : ∀ c ∈ (str "[" ++ nowTime) ++ str "] ", isSurrogate c = false := by
      intro c hc
      rcases List.mem_append.mp hc with h12 | h3
      · rcases List.mem_append.mp h12 with h1 | h2
        · have h1a : c ∈ [91] := h1
          rw [List.mem_singleton] at h1a
          subst h1a
          rfl
        · exact htime c h2
      · have h3a : c ∈ [93, 32] := h3
        rcases List.mem_cons.mp h3a with rfl | h3b
        · rfl
        · rw [List.mem_singleton] at h3b
          subst h3b
          rfl
    unfold formatLogLine
    have hassoc : str "[" ++ nowTime ++ str "] " ++ sanitizeUnicode msg
        = ((str "[" ++ nowTime) ++ str "] ") ++ sanitizeUnicode msg := by
      simp [List.append_assoc]
    rw [hassoc, sanitizeUnicode_append_clean _ _ hclean, sanitizeUnicode_idem]

/-- C3 witness: a concrete lone-high-surrogate message appended to a
concrete record. -/
theorem claim_C3_witness :
    ∃ t2 : TaskState,
      getTask (appendProgressLog 7 (str "tm") sampleStore (str "K-1") [0xd800, 65])
        (str "K-1") = some t2
      ∧ t2.progressLog.getLast? = some (formatLogLine (str "tm") [0xd800, 65])
      ∧ formatLogLine (str "tm") [0xd800, 65]
          = str "[" ++ str "tm" ++ str "] " ++ sanitizeUnicode [0xd800, 65]
      ∧ sanitizeUnicode (formatLogLine (str "tm") [0xd800, 65])
          = formatLogLine (str "tm") [0xd800, 65] :=
  claim_C3_sanitize_spec.2.2 7 (str "tm") [0xd800, 65] sampleStore (str "K-1")
    sampleTask (by decide) (by rfl) (by rfl)

/-- C9: the store operations tolerate absent or malformed state: `getTask`
returns `none` for a missing or unparseable payload, `appendProgressLog` and
`updateTaskStatus` leave the store unchanged when no record exists, and
`getAllTasks` skips corrupted entries instead of failing. -/
theorem claim_C9_store_tolerance :
    (∀ (s : Store) (k : JSString),
        lsGetItem s (taskNS ++ k) = Option.none → getTask s k = Option.none)
    ∧ (∀ (s : Store) (k : JSString),
        lsGetItem s (taskNS ++ k) = some StoredString.malformed →
          getTask s k = Option.none)
    ∧ (∀ (now : Nat) (tm : JSString) (s : Store) (k m : JSString),
        getTask s k = Option.none → appendProgressLog now tm s k m = s)
    ∧ (∀ (now : Nat) (s : Store) (k : JSString) (st : TaskStatus) (p : TaskPatch),
        getTask s k = Option.none →
          (updateTaskStatus now s k st p).1 = s
          ∧ (updateTaskStatus now s k st p).2 = Option.none)
    ∧ (∀ (s1 s2 : Store) (k : JSString),
        getAllTasks (s1 ++ (taskNS ++ k, StoredString.malformed) :: s2)
          = getAllTasks (s1 ++ s2)) := by
  refine ⟨?_, ?_, ?_, ?_, ?_⟩
  · intro s k h
    unfold getTask
    rw [h]
  · intro s k h
    unfold getTask
    rw [h]
  · intro now tm s k m h
    unfold appendProgressLog
    rw [h]
  · intro now s k st p h
    unfold updateTaskStatus
    rw [h]
    exact ⟨rfl, rfl⟩
  · intro s1 s2 k
    unfold getAllTasks
    congr 1
    rw [List.filterMap_append, List.filterMap_append, List.filterMap_cons]
    have : (if startsWithNS (taskNS ++ k) taskNS then
        (match StoredString.malformed with
          | StoredString.taskText t => some t
          | _ => Option.none)
      else Option.none) = (Option.none : Option TaskState) := by
      by_cases h : startsWithNS (taskNS ++ k) taskNS <;> simp [h]
    simp only [this]

/-- C9 witness: concrete absent and corrupted payloads. -/
theorem claim_C9_witness :
    getTask ([] : Store) (str "K-9") = Option.none
    ∧ appendProgressLog 0 (str "tm") ([] : Store) (str "K-9") (str "m") = ([] : Store)
    ∧ (updateTaskStatus 0 ([] : Store) (str "K-9") TaskStatus.complete TaskPatch.none).1
        = ([] : Store)
    ∧ getAllTasks ([] ++ (taskNS ++ str "K-9", StoredString.malformed) :: [])
        = getAllTasks ([] ++ []) := by
  refine ⟨claim_C9_store_tolerance.1 [] (str "K-9") (by rfl),
    claim_C9_store_tolerance.2.2.1 0 (str "tm") [] (str "K-9") (str "m") (by rfl),
    (claim_C9_store_tolerance.2.2.2.1 0 [] (str "K-9") TaskStatus.complete
      TaskPatch.none (by rfl)).1,
    claim_C9_store_tolerance.2.2.2.2 [] [] (str "K-9")⟩

/-! ## Claim theorems: workspace manager -/

/-- C4: when no workspace exists at the resolved path, `createWorktree`
creates the parent directory, fetches remote-tracking references, probes the
upstream branch, and then adds a checkout tracking the existing upstream
branch whenever the branch exists upstream; only otherwise does it fork the
branch from the base branch. -/
theorem claim_C4_upstream_branch_wins :
    ∀ (cfg : AppConfig) (w : GitWorld) (repo : RepoConfig)
      (branchName baseBranch : JSString),
      worktreeExists w (getWorktreePath cfg repo.name branchName) = false →
      ((branchName ∈ w.remoteBranches →
        createWorktree cfg w repo branchName baseBranch =
          ({ w with existingPaths :=
              getWorktreePath cfg repo.name branchName :: w.existingPaths },
           [GitCmd.mkdirParents (parentDir (getWorktreePath cfg repo.name branchName)),
            GitCmd.fetchOrigin repo.name repo.localPath,
            GitCmd.revParseVerify (str "origin/" ++ branchName) true,
            GitCmd.worktreeAddTrack branchName
              (getWorktreePath cfg repo.name branchName) (str "origin/" ++ branchName)],
           getWorktreePath cfg repo.name branchName))
      ∧ (branchName ∉ w.remoteBranches →
        createWorktree cfg w repo branchName baseBranch =
          ({ w with existingPaths :=
              getWorktreePath cfg repo.name branchName :: w.existingPaths },
           [GitCmd.mkdirParents (parentDir (getWorktreePath cfg repo.name branchName)),
            GitCmd.fetchOrigin repo.name repo.localPath,
            GitCmd.revParseVerify (str "origin/" ++ branchName) false,
            GitCmd.worktreeAddFork branchName
              (getWorktreePath cfg repo.name branchName) (str "origin/" ++ baseBranch)],
           getWorktreePath cfg repo.name branchName))) := by
  intro cfg w repo branchName baseBranch h
  constructor
  · intro hmem
    simp [createWorktree, h, hmem]
  · intro hmem
    simp [createWorktree, h, hmem]

/-- C4 witness: concrete worlds exercising both the upstream-tracking and
the fork-from-base path. -/
theorem claim_C4_witness :
    (createWorktree sampleCfg gitWorld1 repo0 (str "b") (str "main") =
      ({ gitWorld1 with existingPaths :=
          getWorktreePath sampleCfg repo0.name (str "b") :: gitWorld1.existingPaths },
       [GitCmd.mkdirParents (parentDir (getWorktreePath sampleCfg repo0.name (str "b"))),
        GitCmd.fetchOrigin repo0.name repo0.localPath,
        GitCmd.revParseVerify (str "origin/" ++ str "b") true,
        GitCmd.worktreeAddTrack (str "b")
          (getWorktreePath sampleCfg repo0.name (str "b")) (str "origin/" ++ str "b")],
       getWorktreePath sampleCfg repo0.name (str "b")))
    ∧ (createWorktree sampleCfg gitWorld2 repo0 (str "b") (str "main") =
      ({ gitWorld2 with existingPaths :=
          getWorktreePath sampleCfg repo0.name (str "b") :: gitWorld2.existingPaths },
       [GitCmd.mkdirParents (parentDir (getWorktreePath sampleCfg repo0.name (str "b"))),
        GitCmd.fetchOrigin repo0.name repo0.localPath,
        GitCmd.revParseVerify (str "origin/" ++ str "b") false,
        GitCmd.worktreeAddFork (str "b")
          (getWorktreePath sampleCfg repo0.name (str "b")) (str "origin/" ++ str "main")],
       getWorktreePath sampleCfg repo0.name (str "b"))) :=
  ⟨(claim_C4_upstream_branch_wins sampleCfg gitWorld1 repo0 (str "b") (str "main")
      (by decide)).1 (by decide),
   (claim_C4_upstream_branch_wins sampleCfg gitWorld2 repo0 (str "b") (str "main")
      (by decide)).2 (by decide)⟩

/-- C5: calling `createWorktree` twice with identical arguments and no
intervening removal returns the same path both times; the second call only
syncs remote references, creating nothing and leaving the world unchanged. -/
theorem claim_C5_createWorktree_idempotent :
    ∀ (cfg : AppConfig) (w : GitWorld) (repo : RepoConfig)
      (branchName baseBranch : JSString),
      (createWorktree cfg (createWorktree cfg w repo branchName baseBranch).1
          repo branchName baseBranch).2.2
        = (createWorktree cfg w repo branchName baseBranch).2.2
      ∧ (createWorktree cfg (createWorktree cfg w repo branchName baseBranch).1
          repo branchName baseBranch).1
        = (createWorktree cfg w repo branchName baseBranch).1
      ∧ (createWorktree cfg (createWorktree cfg w repo branchName baseBranch).1
          repo branchName baseBranch).2.1
        = [GitCmd.fetchOrigin repo.name repo.localPath] := by
  intro cfg w repo b bb
  by_cases h : getWorktreePath cfg repo.name b ∈ w.existingPaths
  · simp [createWorktree, worktreeExists, h]
  · by_cases hb : b ∈ w.remoteBranches
    · simp [createWorktree, worktreeExists, h, hb]
    · simp [createWorktree, worktreeExists, h, hb]

/-- C6: `commitAllChanges` commits exactly when staging everything leaves
staged content, returns whether a commit was created, returns `false` twice
in a row on a clean tree (indeed the second call always returns `false`),
and its outcome is independent of a formatter failure. -/
theorem claim_C6_commit_idempotence :
    ∀ (cfg : AppConfig) (pf : Bool) (w : TreeWorld),
      ((commitAllChanges cfg pf w).2.2 = true
        ↔ ¬(w.trackedChanges = [] ∧ w.untracked = []))
      ∧ (commitAllChanges cfg pf (commitAllChanges cfg pf w).1).2.2 = false
      ∧ (w.trackedChanges = [] → w.untracked = [] →
          (commitAllChanges cfg pf w).2.2 = false)
      ∧ (∀ pf2 : Bool,
          (commitAllChanges cfg pf2 w).2.2 = (commitAllChanges cfg pf w).2.2
          ∧ (commitAllChanges cfg pf2 w).1 = (commitAllChanges cfg pf w).1) := by
  intro cfg pf w
  by_cases h1 : w.trackedChanges = []
  · by_cases h2 : w.untracked = []
    · simp [commitAllChanges, h1, h2]
    · simp [commitAllChanges, h1, h2]
  · simp [commitAllChanges, h1]

/-- C6 witness: a clean tree yields `false` on both consecutive calls, a
dirty tree commits once and then reports `false`. -/
theorem claim_C6_witness :
    (commitAllChanges sampleCfg false { trackedChanges := [], untracked := [] }).2.2 = false
    ∧ (commitAllChanges sampleCfg false
        (commitAllChanges sampleCfg false
          { trackedChanges := [], untracked := [] }).1).2.2 = false
    ∧ (commitAllChanges sampleCfg true
        { trackedChanges := [str "f"], untracked := [] }).2.2 = true
    ∧ (commitAllChanges sampleCfg true
        (commitAllChanges sampleCfg true
          { trackedChanges := [str "f"], untracked := [] }).1).2.2 = false :=
  ⟨(claim_C6_commit_idempotence sampleCfg false
      { trackedChanges := [], untracked := [] }).2.2.1 rfl rfl,
   (claim_C6_commit_idempotence sampleCfg false
      { trackedChanges := [], untracked := [] }).2.1,
   ((claim_C6_commit_idempotence sampleCfg true
      { trackedChanges := [str "f"], untracked := [] }).1).mpr (by decide),
   (claim_C6_commit_idempotence sampleCfg true
      { trackedChanges := [str "f"], untracked := [] }).2.1⟩

/-! ## Claim theorems: dependency installation -/

theorem tryLockFilesAux_done_iff :
    ∀ (table : List (JSString × JSString × List JSString)) (w : InstallWorld),
      (tryLockFilesAux table w).2 = true ↔
        ∃ p ∈ table, p.1 ∈ w.files ∧ w.cmdOk p.1 = true
  | [], w => by simp [tryLockFilesAux]
  | (lf, cmd, args) :: rest, w => by
      have ih := tryLockFilesAux_done_iff rest w
      by_cases hin : lf ∈ w.files
      · by_cases hok : w.cmdOk lf = true
        · simp [tryLockFilesAux, hin, hok]
        · simp [tryLockFilesAux, hin, hok, ih]
      · simp [tryLockFilesAux, hin, ih]

theorem tryLockFilesAux_evs_nil :
    ∀ (table : List (JSString × JSString × List JSString)) (w : InstallWorld),
      (∀ p ∈ table, p.1 ∉ w.files) → tryLockFilesAux table w = ([], false)
  | [], _, _ => rfl
  | (lf, cmd, args) :: rest, w, h => by
      have hin : lf ∉ w.files := by
        have := h (lf, cmd, args) (by simp)
        simpa using this
      have ih := tryLockFilesAux_evs_nil rest w (fun p hp => h p (by simp [hp]))
      simp [tryLockFilesAux, hin, ih]

theorem tryLockFilesAux_evs_cmds :
    ∀ (table : List (JSString × JSString × List JSString)) (w : InstallWorld)
      (ev : InstallEv), ev ∈ (tryLockFilesAux table w).1 →
      ∃ p ∈ table, ∃ b : Bool, ev = InstallEv.run p.2.1 p.2.2 b
  | [], w, ev, h => by simp [tryLockFilesAux] at h
  | (lf, cmd, args) :: rest, w, ev, h => by
      by_cases hin : lf ∈ w.files
      · by_cases hok : w.cmdOk lf = true
        · simp [tryLockFilesAux, hin, hok] at h
          exact ⟨(lf, cmd, args), by simp, true, by simp [h]⟩
        · simp [tryLockFilesAux, hin, hok] at h
          rcases h with h | h
          · exact ⟨(lf, cmd, args), by simp, false, by simp [h]⟩
          · rcases tryLockFilesAux_evs_cmds rest w ev h with ⟨p, hp, b, hb⟩
            exact ⟨p, by simp [hp], b, hb⟩
      · have h' : ev ∈ (tryLockFilesAux rest w).1 := by
          simpa [tryLockFilesAux, hin] using h
        rcases tryLockFilesAux_evs_cmds rest w ev h' with ⟨p, hp, b, hb⟩
        exact ⟨p, by simp [hp], b, hb⟩

/-- C7 counterexample: with only `bun.lockb` present and `bun install`
failing, `installDependencies` records the failed attempt and still resolves
successfully — the failure is not surfaced to the caller. -/
theorem claim_C7_counterexample :
    (installDependencies instWorld0).1
      = [InstallEv.run (str "bun") [str "install"] false]
    ∧ ¬ ∃ e : JSString, (installDependencies instWorld0).2 = Except.error e := by
  constructor
  · rfl
  · rintro ⟨e, he⟩
    have hok : (installDependencies instWorld0).2 = Except.ok () := rfl
    rw [hok] at he
    exact Except.noConfusion he

/-- C7 amended: an install failure for a detected lock file is caught and
the next recognized lock format is tried; `installDependencies` never
surfaces an error.  The generic `npm install` fallback runs only when no
lock-file install succeeded, and nothing at all is run when neither a lock
file nor a manifest exists. -/
theorem claim_C7_amended :
    ∀ w : InstallWorld,
      (installDependencies w).2 = Except.ok ()
      ∧ ((tryLockFilesAux lockFileTable w).2 = true ↔
          ∃ p ∈ lockFileTable, p.1 ∈ w.files ∧ w.cmdOk p.1 = true)
      ∧ ((∀ p ∈ lockFileTable, p.1 ∉ w.files) → str "package.json" ∉ w.files →
          (installDependencies w).1 = [])
      ∧ ((∃ p ∈ lockFileTable, p.1 ∈ w.files ∧ w.cmdOk p.1 = true) →
          ∀ b : Bool,
            InstallEv.run (str "npm") [str "install"] b ∉ (installDependencies w).1) := by
  intro w
  refine ⟨?_, tryLockFilesAux_done_iff lockFileTable w, ?_, ?_⟩
  · unfold installDependencies
    by_cases h1 : (tryLockFilesAux lockFileTable w).2 = true
    · simp [h1]
    · by_cases h2 : str "package.json" ∈ w.files <;> simp [h1, h2]
  · intro hlocks hpkg
    have h := tryLockFilesAux_evs_nil lockFileTable w hlocks
    simp [installDependencies, h, hpkg]
  · rintro ⟨p, hp, hin, hok⟩ b hmem
    have hdone : (tryLockFilesAux lockFileTable w).2 = true :=
      (tryLockFilesAux_done_iff lockFileTable w).mpr ⟨p, hp, hin, hok⟩
    have hmem' : InstallEv.run (str "npm") [str "install"] b
        ∈ (tryLockFilesAux lockFileTable w).1 := by
      simpa [installDependencies, hdone] using hmem
    rcases tryLockFilesAux_evs_cmds lockFileTable w _ hmem' with ⟨p', hp', b', he⟩
    simp only [lockFileTable, List.mem_cons, List.mem_singleton] at hp'
    rcases hp' with rfl | rfl | rfl | rfl | rfl | h5
    · injection he with h1 h2 h3
      exact absurd h1 (by decide)
    · injection he with h1 h2 h3
      exact absurd h1 (by decide)
    · injection he with h1 h2 h3
      exact absurd h1 (by decide)
    · injection he with h1 h2 h3
      exact absurd h1 (by decide)
    · injection he with h1 h2 h3
      exact absurd h2 (by decide)
    · simp at h5

/-- C7 witness for the amended claim: a world with no lock file and no
manifest runs nothing, and a world whose first lock install succeeds never
reaches the generic fallback. -/
theorem claim_C7_amended_witness :
    (installDependencies { files := [], cmdOk := fun _ => false, npmInstallOk := true }).1 = []
    ∧ ∀ b : Bool, InstallEv.run (str "npm") [str "install"] b
        ∉ (installDependencies
            { files := [str "bun.lockb"], cmdOk := fun _ => true, npmInstallOk := true }).1 :=
  ⟨(claim_C7_amended { files := [], cmdOk := fun _ => false, npmInstallOk := true }).2.2.1
      (by intro p hp; simp) (by simp),
   (claim_C7_amended
      { files := [str "bun.lockb"], cmdOk := fun _ => true, npmInstallOk := true }).2.2.2
      ⟨(str "bun.lockb", str "bun", [str "install"]), by simp [lockFileTable], by simp, rfl⟩⟩

/-! ## Task-record facts about orchestration steps -/

theorem taskPresent_saveTask (now : Nat) (store : Store) (t' : TaskState) (key : JSString)
    (h : ∃ t : TaskState, getTask store key = some t ∧ t.jiraKey = key) :
    ∃ t : TaskState, getTask (saveTask now store t') key = some t ∧ t.jiraKey = key := by
  rcases h with ⟨t, ht, htk⟩
  rw [getTask_saveTask]
  by_cases hk : key = t'.jiraKey
  · exact ⟨{ t' with updatedAt := now }, by rw [if_pos hk], hk.symm⟩
  · exact ⟨t, by rw [if_neg hk]; exact ht, htk⟩

theorem preserves_logStep (key : JSString) (ctx : RunCtx) (msg : JSString) :
    PreservesTask key (logStep ctx msg) := by
  intro s hp
  simp only [logStep]
  cases h : getTask s.store ctx.key with
  | none =>
      show TaskPresent key _
      unfold TaskPresent
      simp only [appendProgressLog, h]
      exact hp
  | some t' =>
      show TaskPresent key _
      unfold TaskPresent
      simp only [appendProgressLog, h]
      exact taskPresent_saveTask _ _ _ _ hp

theorem preserves_statusStep (key : JSString) (ctx : RunCtx) (st : TaskStatus)
    (p : TaskPatch) : PreservesTask key (statusStep ctx st p) := by
  intro s hp
  simp only [statusStep]
  cases h : getTask s.store ctx.key with
  | none =>
      show TaskPresent key _
      unfold TaskPresent
      simp only [updateTaskStatus, h]
      exact hp
  | some t' =>
      show TaskPresent key _
      unfold TaskPresent
      simp only [updateTaskStatus, h]
      exact taskPresent_saveTask _ _ _ _ hp

theorem preserves_extStep (key : JSString) (e : Ev) {α : Type} (r : Except JSString α) :
    PreservesTask key (extStep e r) := fun _ hp => hp

theorem preserves_pure (key : JSString) {α : Type} (a : α) :
    PreservesTask key (OrchM.pure a) := fun _ hp => hp

theorem preserves_bind {α β : Type} {key : JSString} {m : OrchM α} {f : α → OrchM β}
    (h1 : PreservesTask key m) (h2 : ∀ a, PreservesTask key (f a)) :
    PreservesTask key (OrchM.bind m f) := by
  intro s hp
  show TaskPresent key ((OrchM.bind m f) s).1
  unfold OrchM.bind
  rcases hms : m s with ⟨s1, r⟩
  have hs1 : TaskPresent key s1 := by
    have := h1 s hp
    rwa [hms] at this
  cases r with
  | ok a => exact h2 a s1 hs1
  | error e => exact hs1

theorem preserves_tryCatch {α : Type} {key : JSString} {m : OrchM α}
    {onOk : α → OrchM Unit} {onErr : JSString → OrchM Unit}
    (h1 : PreservesTask key m) (h2 : ∀ a, PreservesTask key (onOk a))
    (h3 : ∀ e, PreservesTask key (onErr e)) :
    PreservesTask key (tryCatch m onOk onErr) := by
  intro s hp
  unfold tryCatch
  rcases hms : m s with ⟨s1, r⟩
  have hs1 : TaskPresent key s1 := by
    have := h1 s hp
    rwa [hms] at this
  cases r with
  | ok a => exact h2 a s1 hs1
  | error e => exact h3 e s1 hs1

theorem preserves_ite {α : Type} {key : JSString} (c : Prop) [Decidable c]
    {m m' : OrchM α} (h1 : PreservesTask key m) (h2 : PreservesTask key m') :
    PreservesTask key (if c then m else m') := by
  by_cases hc : c
  · rwa [if_pos hc]
  · rwa [if_neg hc]

set_option maxHeartbeats 2000000 in
theorem implBody_preserves (key : JSString) (o : ImplOracle) (ctx : RunCtx)
    (ui : JSString) : PreservesTask key (implBody o ctx ui) := by
  unfold implBody
  repeat first
    | apply preserves_bind
    | apply preserves_ite
    | apply preserves_tryCatch
    | exact preserves_logStep _ _ _
    | exact preserves_statusStep _ _ _ _
    | exact preserves_extStep _ _ _
    | exact preserves_pure _ _
    | intro a

set_option maxHeartbeats 2000000 in
theorem planBody_preserves (key : JSString) (cfg : AppConfig) (o : PlanOracle)
    (ctx : RunCtx) (ui br : JSString) (upd : Bool) :
    PreservesTask key (planBody cfg o ctx ui br upd) := by
  unfold planBody
  repeat first
    | apply preserves_bind
    | apply preserves_ite
    | apply preserves_tryCatch
    | exact preserves_logStep _ _ _
    | exact preserves_statusStep _ _ _ _
    | exact preserves_extStep _ _ _
    | exact preserves_pure _ _
    | intro a

set_option maxHeartbeats 2000000 in
theorem feedbackBody_preserves (key : JSString) (o : FeedbackOracle) (ctx : RunCtx)
    (task : TaskState) (ftext : JSString) (post : Bool) :
    PreservesTask key (feedbackBody o ctx task ftext post) := by
  unfold feedbackBody
  repeat first
    | apply preserves_bind
    | apply preserves_ite
    | apply preserves_tryCatch
    | exact preserves_logStep _ _ _
    | exact preserves_statusStep _ _ _ _
    | exact preserves_extStep _ _ _
    | exact preserves_pure _ _
    | intro a

theorem getTask_statusStep (ctx : RunCtx) (st : TaskStatus) (p : TaskPatch)
    (s : OrchState) (t : TaskState)
    (ht : getTask s.store ctx.key = some t) (htk : t.jiraKey = ctx.key) :
    getTask (statusStep ctx st p s).1.store ctx.key
      = some { applyPatch { t with status := st } p with updatedAt := ctx.now } := by
  simp only [statusStep]
  unfold updateTaskStatus
  simp only [ht]
  rw [getTask_saveTask]
  rw [if_pos (show ctx.key = (applyPatch { t with status := st } p).jiraKey from htk.symm)]

theorem getTask_logStep (ctx : RunCtx) (msg : JSString) (s : OrchState) (t : TaskState)
    (ht : getTask s.store ctx.key = some t) (htk : t.jiraKey = ctx.key) :
    getTask (logStep ctx msg s).1.store ctx.key
      = some { t with progressLog := pushTrim t.progressLog (formatLogLine ctx.tm msg)
                      updatedAt := ctx.now } :=
  getTask_appendProgressLog ctx.now ctx.tm s.store ctx.key msg t ht htk

/-- After the shared catch handler, the record carries `cancelled` when the
token was triggered and `error` with the message verbatim otherwise. -/
theorem catchHandler_spec (ctx : RunCtx) (aborted : Bool) (msg : JSString)
    (s : OrchState) (hp : TaskPresent ctx.key s) :
    ∃ t : TaskState, getTask (catchHandler ctx aborted msg s).store ctx.key = some t
      ∧ t.jiraKey = ctx.key
      ∧ t.status = (if aborted then TaskStatus.cancelled else TaskStatus.error)
      ∧ (aborted = false → t.error = some msg) := by
  rcases hp with ⟨t, ht, htk⟩
  unfold catchHandler
  cases aborted with
  | true =>
      rw [if_pos rfl]
      have h1 := getTask_statusStep ctx TaskStatus.cancelled TaskPatch.none s t ht htk
      have h2 := getTask_logStep ctx (str "Task cancelled by user") _ _ h1 htk
      refine ⟨_, h2, htk, rfl, fun h => nomatch h⟩
  | false =>
      rw [if_neg (by simp)]
      have h1 := getTask_statusStep ctx TaskStatus.error
        { TaskPatch.none with error := some (some msg) } s t ht htk
      have h2 := getTask_logStep ctx (str "Error: " ++ msg) _ _ h1 htk
      refine ⟨_, h2, htk, rfl, fun _ => rfl⟩

/-- If `orchestrateImplementation` caught an error, the record under the
issue identifier ends `cancelled`/`error` accordingly. -/
theorem orchestrateImplementation_raise (o : ImplOracle) (aborted : Bool) (now : Nat)
    (tm : JSString) (issue : LinearIssue) (ui : JSString) (s : OrchState)
    (msg : JSString) (hp : TaskPresent issue.identifier s)
    (hr : (orchestrateImplementation o aborted now tm issue ui s).2 = some msg) :
    ∃ t : TaskState,
      getTask (orchestrateImplementation o aborted now tm issue ui s).1.store
        issue.identifier = some t
      ∧ t.jiraKey = issue.identifier
      ∧ t.status = (if aborted then TaskStatus.cancelled else TaskStatus.error)
      ∧ (aborted = false → t.error = some msg) := by
  unfold orchestrateImplementation at hr ⊢
  have hpres := implBody_preserves issue.identifier o
    { now := now, tm := tm, key := issue.identifier } ui s hp
  revert hr
  rcases h : implBody o { now := now, tm := tm, key := issue.identifier } ui s with ⟨s1, r⟩
  rw [h] at hpres
  cases r with
  | ok a =>
      intro hr
      simp at hr
  | error m =>
      intro hr
      simp only [Option.some.injEq] at hr
      subst hr
      exact catchHandler_spec _ aborted m s1 hpres

/-- Same fact for `orchestratePlan`. -/
theorem orchestratePlan_raise (cfg : AppConfig) (o : PlanOracle) (aborted : Bool)
    (now : Nat) (tm : JSString) (issue : LinearIssue) (ui br : JSString) (upd : Bool)
    (s : OrchState) (msg : JSString) (hp : TaskPresent issue.identifier s)
    (hr : (orchestratePlan cfg o aborted now tm issue ui br upd s).2 = some msg) :
    ∃ t : TaskState,
      getTask (orchestratePlan cfg o aborted now tm issue ui br upd s).1.store
        issue.identifier = some t
      ∧ t.jiraKey = issue.identifier
      ∧ t.status = (if aborted then TaskStatus.cancelled else TaskStatus.error)
      ∧ (aborted = false → t.error = some msg) := by
  unfold orchestratePlan at hr ⊢
  have hpres := planBody_preserves issue.identifier cfg o
    { now := now, tm := tm, key := issue.identifier } ui br upd s hp
  revert hr
  rcases h : planBody cfg o { now := now, tm := tm, key := issue.identifier } ui br upd s
    with ⟨s1, r⟩
  rw [h] at hpres
  cases r with
  | ok a =>
      intro hr
      simp at hr
  | error m =>
      intro hr
      simp only [Option.some.injEq] at hr
      subst hr
      exact catchHandler_spec _ aborted m s1 hpres

/-- Same fact for `orchestrateFeedback` (keyed by the record's own key). -/
theorem orchestrateFeedback_raise (o : FeedbackOracle) (aborted : Bool) (now : Nat)
    (tm : JSString) (task : TaskState) (ftext : JSString) (post : Bool)
    (s : OrchState) (msg : JSString) (hp : TaskPresent task.jiraKey s)
    (hr : (orchestrateFeedback o aborted now tm task ftext post s).2 = some msg) :
    ∃ t : TaskState,
      getTask (orchestrateFeedback o aborted now tm task ftext post s).1.store
        task.jiraKey = some t
      ∧ t.jiraKey = task.jiraKey
      ∧ t.status = (if aborted then TaskStatus.cancelled else TaskStatus.error)
      ∧ (aborted = false → t.error = some msg) := by
  unfold orchestrateFeedback at hr ⊢
  have hpres := feedbackBody_preserves task.jiraKey o
    { now := now, tm := tm, key := task.jiraKey } task ftext post s hp
  revert hr
  rcases h : feedbackBody o { now := now, tm := tm, key := task.jiraKey } task ftext post s
    with ⟨s1, r⟩
  rw [h] at hpres
  cases r with
  | ok a =>
      intro hr
      simp at hr
  | error m =>
      intro hr
      simp only [Option.some.injEq] at hr
      subst hr
      exact catchHandler_spec _ aborted m s1 hpres

theorem getTask_clearCancellation (s : Store) (k key : JSString) :
    getTask (clearCancellation s k) key = getTask s key := by
  unfold getTask clearCancellation
  rw [lsGetItem_lsRemoveItem, if_neg (taskNS_ne_cancelNS key k)]

theorem getTask_clearParams (s : Store) (k key : JSString) :
    getTask (clearOrchestrationParams s k) key = getTask s key := by
  unfold getTask clearOrchestrationParams
  rw [lsGetItem_lsRemoveItem, if_neg (taskNS_ne_orchNS key k)]

theorem getTask_saveParams (s : Store) (k key : JSString) (p : ParamsAbs) :
    getTask (saveOrchestrationParams s k p) key = getTask s key := by
  unfold getTask saveOrchestrationParams
  rw [lsGetItem_lsSetItem, if_neg (taskNS_ne_orchNS key k)]

/-! ## Teardown lemmas and claim C1 -/

theorem lsGetItem_clearCancellation_self (s : Store) (k : JSString) :
    lsGetItem (clearCancellation s k) (cancelNS ++ k) = Option.none := by
  unfold clearCancellation
  rw [lsGetItem_lsRemoveItem, if_pos rfl]

theorem lsGetItem_clearParams_self (s : Store) (k : JSString) :
    lsGetItem (clearOrchestrationParams s k) (orchNS ++ k) = Option.none := by
  unfold clearOrchestrationParams
  rw [lsGetItem_lsRemoveItem, if_pos rfl]

theorem lsGetItem_clearCancellation_orch (s : Store) (k k' : JSString) :
    lsGetItem (clearCancellation s k) (orchNS ++ k') = lsGetItem s (orchNS ++ k') := by
  unfold clearCancellation
  rw [lsGetItem_lsRemoveItem, if_neg (orchNS_ne_cancelNS k' k)]

/-- Reading the task record straight through the finally block. -/
theorem getTask_finally (c : Prop) [Decidable c] (b : OrchState) (tr : List Ev)
    (k key : JSString) :
    getTask (clearCancellation
      (if c then ({ store := clearOrchestrationParams b.store k, trace := tr } : OrchState)
       else b).store k) key = getTask b.store key := by
  by_cases hc : c
  · rw [if_pos hc]
    show getTask (clearCancellation (clearOrchestrationParams b.store k) k) key = _
    rw [getTask_clearCancellation, getTask_clearParams]
  · rw [if_neg hc]
    exact getTask_clearCancellation _ _ _

/-- Variant of the finally-block lemma where the pre-teardown state is a
literal. -/
theorem getTask_finallyLit (c : Prop) [Decidable c] (bs : Store) (btr tr : List Ev)
    (k key : JSString) :
    getTask (clearCancellation
      (if c then ({ store := clearOrchestrationParams bs k, trace := tr } : OrchState)
       else { store := bs, trace := btr }).store k) key = getTask bs key := by
  by_cases hc : c
  · rw [if_pos hc]
    show getTask (clearCancellation (clearOrchestrationParams bs k) k) key = _
    rw [getTask_clearCancellation, getTask_clearParams]
  · rw [if_neg hc]
    exact getTask_clearCancellation _ _ _

/-- C1: if an orchestration run raises, the terminal status of the task is
`cancelled` when the cancellation token was triggered and `error` with the
raised message stored verbatim otherwise; in both cases the finally block
clears the cancellation flag for the key, and clears the stored
orchestration parameters for every mode except `plan`. -/
theorem claim_C1_raise_terminal_status_and_teardown :
    ∀ (cfg : AppConfig) (repos : List RepoConfig) (oPlan : PlanOracle)
      (oImpl : ImplOracle) (oFb : FeedbackOracle) (aborted : Bool) (now : Nat)
      (tm launchKey : JSString) (s0 : Store) (params : ParamsAbs) (msg : JSString),
      getOrchestrationParams s0 launchKey = some params →
      (runOrchestration cfg repos oPlan oImpl oFb aborted now tm launchKey s0).2
        = some msg →
      lsGetItem
          (runOrchestration cfg repos oPlan oImpl oFb aborted now tm launchKey s0).1.store
          (cancelNS ++ launchKey) = Option.none
      ∧ (params.isPlanMode = false →
          lsGetItem
            (runOrchestration cfg repos oPlan oImpl oFb aborted now tm launchKey s0).1.store
            (orchNS ++ launchKey) = Option.none)
      ∧ (∀ t0 : TaskState, getTask s0 launchKey = some t0 → t0.jiraKey = launchKey →
          params.writeKey = launchKey →
          ∃ t : TaskState,
            getTask
              (runOrchestration cfg repos oPlan oImpl oFb aborted now tm launchKey s0).1.store
              launchKey = some t
            ∧ t.status = (if aborted then TaskStatus.cancelled else TaskStatus.error)
            ∧ (aborted = false → t.error = some msg)) := by
  intro cfg repos oPlan oImpl oFb aborted now tm launchKey s0 params msg hparams hraise
  unfold runOrchestration at hraise ⊢
  rw [hparams] at hraise ⊢
  refine ⟨?_, ?_, ?_⟩
  · dsimp only
    exact lsGetItem_clearCancellation_self _ _
  · intro h2
    dsimp only
    rw [if_pos h2]
    show lsGetItem (clearCancellation (clearOrchestrationParams _ launchKey) launchKey)
      (orchNS ++ launchKey) = Option.none
    rw [lsGetItem_clearCancellation_orch, lsGetItem_clearParams_self]
  · intro t0 ht0 ht0k hwk
    rcases params with ⟨iid, ident, ititle, iurl, idesc, repoName, branchName, baseBranch,
        uinstr, upd⟩
      | ⟨iid, ident, ititle, iurl, idesc, repoName, branchName, baseBranch, uinstr⟩
      | ⟨fkey, repoName, ftext, post, nctx⟩
    · -- plan mode
      dsimp only [ParamsAbs.writeKey] at hwk
      subst hwk
      dsimp only at hraise ⊢
      cases hfind : repos.find? (fun r => decide (r.name = repoName)) with
      | none =>
          rw [hfind] at hraise
          simp at hraise
      | some repo =>
          rw [hfind] at hraise
          dsimp only at hraise ⊢
          have hp : TaskPresent ident { store := s0, trace := [] } := ⟨t0, ht0, ht0k⟩
          rcases orchestratePlan_raise cfg oPlan aborted now tm
            { id := iid, identifier := ident, title := ititle, url := iurl
              description := idesc } uinstr branchName upd { store := s0, trace := [] }
            msg hp hraise with ⟨t, htg, _, hst, herr⟩
          refine ⟨t, ?_, hst, herr⟩
          rw [getTask_finallyLit]
          rw [getTask_saveParams]
          exact htg
    · -- implement mode
      dsimp only [ParamsAbs.writeKey] at hwk
      subst hwk
      dsimp only at hraise ⊢
      cases hfind : repos.find? (fun r => decide (r.name = repoName)) with
      | none =>
          rw [hfind] at hraise
          simp at hraise
      | some repo =>
          rw [hfind] at hraise
          dsimp only at hraise ⊢
          have hp : TaskPresent ident { store := s0, trace := [] } := ⟨t0, ht0, ht0k⟩
          rcases orchestrateImplementation_raise oImpl aborted now tm
            { id := iid, identifier := ident, title := ititle, url := iurl
              description := idesc } uinstr { store := s0, trace := [] }
            msg hp hraise with ⟨t, htg, _, hst, herr⟩
          refine ⟨t, ?_, hst, herr⟩
          rw [getTask_finally]
          exact htg
    · -- feedback mode
      dsimp only [ParamsAbs.writeKey] at hwk
      subst hwk
      dsimp only at hraise ⊢
      cases hfind : repos.find? (fun r => decide (r.name = repoName)) with
      | none =>
          rw [hfind] at hraise
          simp at hraise
      | some repo =>
          rw [hfind] at hraise
          dsimp only at hraise ⊢
          rw [ht0] at hraise ⊢
          dsimp only at hraise ⊢
          have hp : TaskPresent t0.jiraKey { store := s0, trace := [] } :=
            ⟨t0, by rw [ht0k]; exact ht0, rfl⟩
          rcases orchestrateFeedback_raise oFb aborted now tm t0 ftext post
            { store := s0, trace := [] } msg hp hraise with ⟨t, htg, _, hst, herr⟩
          refine ⟨t, ?_, hst, herr⟩
          rw [getTask_finally]
          rw [ht0k] at htg
          exact htg

/-- C1 witness: a concrete implement run whose first step rejects with
message `boom` and whose token was not triggered ends in `error` with the
message stored verbatim, with the cancellation flag and the parameters
cleared. -/
theorem claim_C1_witness :
    lsGetItem
        (runOrchestration sampleCfg [repo0] planOracle0 implOracleFail fbOracle0
          false 5 (str "tm") (str "K-1") storeC1).1.store
        (cancelNS ++ str "K-1") = Option.none
    ∧ lsGetItem
        (runOrchestration sampleCfg [repo0] planOracle0 implOracleFail fbOracle0
          false 5 (str "tm") (str "K-1") storeC1).1.store
        (orchNS ++ str "K-1") = Option.none
    ∧ (Option.map TaskState.status
        (getTask
          (runOrchestration sampleCfg [repo0] planOracle0 implOracleFail fbOracle0
            false 5 (str "tm") (str "K-1") storeC1).1.store (str "K-1"))
        = some TaskStatus.error)
    ∧ (Option.map TaskState.error
        (getTask
          (runOrchestration sampleCfg [repo0] planOracle0 implOracleFail fbOracle0
            false 5 (str "tm") (str "K-1") storeC1).1.store (str "K-1"))
        = some (some (str "boom"))) := by
  have h := claim_C1_raise_terminal_status_and_teardown sampleCfg [repo0] planOracle0
    implOracleFail fbOracle0 false 5 (str "tm") (str "K-1") storeC1 paramsC1
    (str "boom") (by rfl) (by rfl)
  rcases h.2.2 sampleTask (by rfl) (by rfl) (by rfl) with ⟨t, htg, hst, herr⟩
  refine ⟨h.1, h.2.1 rfl, ?_, ?_⟩
  · rw [htg]
    simpa using hst
  · rw [htg]
    simpa using herr rfl

/-! ## Claim C8: status writes versus the corresponding work -/

/-- C8 counterexample: in a concrete implement run in which every awaited
call resolves, the completion statuses are written after their work, not
before it — `git worktree add` runs at trace index 1 while
`worktree_created` is only written at index 2 — so the claim that every
transition writes its status before the corresponding side-effecting work
is false. -/
theorem claim_C8_counterexample :
    statusWrittenBeforeWork
      (orchestrateImplementation implOracleOk false 5 (str "tm") sampleIssue (str "")
        { store := sampleStore, trace := [] }).1.trace (str "K-1") = false
    ∧ firstIdxOf
        (orchestrateImplementation implOracleOk false 5 (str "tm") sampleIssue (str "")
          { store := sampleStore, trace := [] }).1.trace Ev.extCreateWorktree = some 1
    ∧ firstIdxOf
        (orchestrateImplementation implOracleOk false 5 (str "tm") sampleIssue (str "")
          { store := sampleStore, trace := [] }).1.trace
        (Ev.storeStatus (str "K-1") TaskStatus.worktree_created) = some 2 :=
  ⟨rfl, rfl, rfl⟩

/-- C8 amended: in an implement run in which every awaited call resolves,
the interleaving of store writes and external work is exactly the fixed
sequence `implAllOkTrace`: the in-progress statuses `implementing` and
`pushing` are written before the agent run and before commit/push
respectively, while `worktree_created`, `dependencies_installed`,
`implementation_complete`, `pr_created` and `complete` are each written
immediately after their corresponding operation completes and before the
next step begins; and no error is caught. -/
theorem claim_C8_amended :
    ∀ (wp ui : JSString) (plan : Option JSString) (res : ClaudeResult) (dc : Bool)
      (pr : PRInfo) (aborted : Bool) (now : Nat) (tm : JSString)
      (issue : LinearIssue) (s : OrchState),
      (orchestrateImplementation
        { createWorktree := Except.ok wp, transitionInProgress := Except.ok ()
          addContextComment := Except.ok (), installDeps := Except.ok ()
          existingPlan := plan, runClaude := Except.ok res
          commitAll := Except.ok dc, push := Except.ok ()
          createPR := Except.ok pr, transitionInReview := Except.ok ()
          addDoneComment := Except.ok () }
        aborted now tm issue ui s).1.trace
        = s.trace ++ implAllOkTrace issue.identifier wp ui plan res.costUsd dc pr.htmlUrl
      ∧ (orchestrateImplementation
        { createWorktree := Except.ok wp, transitionInProgress := Except.ok ()
          addContextComment := Except.ok (), installDeps := Except.ok ()
          existingPlan := plan, runClaude := Except.ok res
          commitAll := Except.ok dc, push := Except.ok ()
          createPR := Except.ok pr, transitionInReview := Except.ok ()
          addDoneComment := Except.ok () }
        aborted now tm issue ui s).2 = Option.none := by
  intro wp ui plan res dc pr aborted now tm issue s
  by_cases hui : trimJS ui ≠ [] <;> cases plan <;> cases dc <;>
    simp [orchestrateImplementation, implBody, implAllOkTrace, OrchM.bind, OrchM.pure,
      logStep, statusStep, extStep, tryCatch, hui, List.append_assoc]

end AutoZerts
